import Mathlib

/-!
# Doc2Code generation pipeline — shallow embedding and verification

This file embeds the backend generation-orchestration pipeline of the
Doc2Code repository (TypeScript) in Lean 4 and proves/refutes the frozen
claims about it.

Modeling conventions:
* JavaScript numbers are modeled by `ℚ` (the code never relies on float
  rounding except through `Math.round`, which is modeled exactly as
  `⌊q + 1/2⌋`, JavaScript's round-half-toward-+∞).
* Strings are Lean `String`s; character-level scanning mirrors the regexes
  of the source (ASCII fragment of `\s` and `\w`; the code only ever feeds
  ASCII-relevant patterns).
* Asynchronous model-gateway calls (`chatCompletion`, `createEmbedding`) and
  `JSON.parse` of their untyped replies are effects; each call site takes the
  call's observable outcome as an explicit argument (`CallOutcome` /
  `JsonOutcome`), so service functions are pure functions of their inputs and
  the outcomes of the calls they make.
* The MongoDB `DocChunk` collection is modeled as an explicit list-valued
  store threaded through `ingestDocument`; `sha256` URL hashing is modeled by
  the normalized URL itself (a collision-free abstraction: equal URLs give
  equal keys, which is the only property the code relies on).
* Thrown JS exceptions become `Except String` results.
-/

/-! ## JavaScript primitives -/

/-- `Math.round`: round half toward +∞ (JavaScript semantics). -/
def jsRound (q : ℚ) : ℤ := ⌊q + 1/2⌋

/-- The backtick character (code 96), written via `Char.ofNat`. -/
def backtickChar : Char := Char.ofNat 96

/-- The opening curly brace character (code 123). -/
def openBraceChar : Char := Char.ofNat 123

/-- The closing curly brace character (code 125). -/
def closeBraceChar : Char := Char.ofNat 125

/-- The ASCII fragment of JavaScript's `\s` character class
(space, tab, newline, carriage return, vertical tab, form feed). -/
def isJsWs (c : Char) : Bool :=
  c == ' ' || c == '\t' || c == '\n' || c == '\r' || c.toNat == 11 || c.toNat == 12

/-- JavaScript's `\w` word-character class `[A-Za-z0-9_]`. -/
def isWordChar (c : Char) : Bool :=
  ('a' ≤ c && c ≤ 'z') || ('A' ≤ c && c ≤ 'Z') || ('0' ≤ c && c ≤ '9') || c == '_'

/-- `String.prototype.trim` on a character list: strip whitespace at both ends. -/
def jsTrimL (l : List Char) : List Char :=
  ((l.dropWhile isJsWs).reverse.dropWhile isJsWs).reverse

/-- `String.prototype.trim`. -/
def jsTrimS (s : String) : String := String.mk (jsTrimL s.data)

/-- `String.prototype.toLowerCase` (ASCII). -/
def jsLower (s : String) : String := String.mk (s.data.map Char.toLower)

/-- Does some suffix of the list satisfy the match-here predicate?  Used to
model `RegExp.prototype.test`, which scans all start positions. -/
def anySuffix (p : List Char → Bool) : List Char → Bool
  | [] => p []
  | c :: rest => p (c :: rest) || anySuffix p rest

/-- Substring containment (`String.prototype.includes`) on char lists. -/
def containsSub (needle : List Char) (hay : List Char) : Bool :=
  anySuffix (fun suf => needle.isPrefixOf suf) hay

/-- JS `x || y` for string-valued `x` where absence/null is `none` and the
empty string is falsy. -/
def jsOrStr (x : Option String) (y : Option String) : Option String :=
  match x with
  | some s => if s = "" then y else some s
  | none => y

/-- An effectful call's observable outcome: the awaited promise either
rejected (threw) with an error message or resolved to a value. -/
inductive CallOutcome (α : Type) where
  | thrown (msg : String)
  | returned (v : α)
deriving DecidableEq, Repr

/-- Outcome of a model call whose reply is then fed to `JSON.parse`: the call
may throw, the reply may fail to parse, or it parses to a value of the
expected (dynamically checked) shape. -/
inductive JsonOutcome (α : Type) where
  | thrown (msg : String)
  | parseFail (msg : String)
  | parsed (v : α)
deriving DecidableEq, Repr

/-! ## `config.ts` — `ENGINE_CONFIG` -/

structure ConfidenceWeights where
  judge : ℚ
  runtime : ℚ
  staticW : ℚ
  docSimilarity : ℚ
deriving DecidableEq, Repr

structure RetryConfig where
  maxAttempts : ℕ
  baseDelayMs : ℕ
  maxDelayMs : ℕ
deriving DecidableEq, Repr

structure ModelNames where
  enhancement : String
  primaryCode : String
  alternativeCode : String
  judge : String
  runtimeFix : String
  securityAudit : String
  codeChat : String
  embedding : String
deriving DecidableEq, Repr

structure EngineConfig where
  models : ModelNames
  confidenceWeights : ConfidenceWeights
  retry : RetryConfig
  maxFixAttempts : ℕ
deriving DecidableEq, Repr

/-- `ENGINE_CONFIG` from `config.ts` (the fields the pipeline logic reads). -/
def ENGINE_CONFIG : EngineConfig where
  models :=
    { enhancement := "gpt-4o-mini"
      primaryCode := "gpt-4.1-mini"
      alternativeCode := "gpt-4o-mini"
      judge := "gpt-4o-mini"
      runtimeFix := "gpt-4.1-mini"
      securityAudit := "o4-mini"
      codeChat := "gpt-4o-mini"
      embedding := "text-embedding-3-large" }
  confidenceWeights :=
    { judge := 4/10, runtime := 3/10, staticW := 2/10, docSimilarity := 1/10 }
  retry := { maxAttempts := 3, baseDelayMs := 1000, maxDelayMs := 10000 }
  maxFixAttempts := 2

/-! ## `confidenceService` — `calculateConfidence` -/

structure ConfidenceBreakdown where
  judgeScore : ℚ
  runtimeScore : ℚ
  staticScore : ℚ
  docSimilarity : ℚ
deriving DecidableEq, Repr

structure ConfidenceResult where
  confidenceScore : ℤ
  verificationStatus : String
  breakdown : ConfidenceBreakdown
deriving DecidableEq, Repr

/-- `calculateConfidence` from the confidence scoring service: normalizes
`docSimilarity` from 0–1 to a rounded 0–100 value, then takes the rounded
weighted sum and classifies it. -/
def calculateConfidence (judgeScore runtimeScore staticScore docSimilarity : ℚ) :
    ConfidenceResult :=
  let w := ENGINE_CONFIG.confidenceWeights
  let normalizedDocSim : ℤ := jsRound (docSimilarity * 100)
  let confidenceScore : ℤ :=
    jsRound (judgeScore * w.judge + runtimeScore * w.runtime +
      staticScore * w.staticW + (normalizedDocSim : ℚ) * w.docSimilarity)
  let verificationStatus : String :=
    if confidenceScore ≥ 75 ∧ runtimeScore ≥ 70 ∧ staticScore ≥ 60 then "verified"
    else if confidenceScore ≥ 50 then "partial"
    else "unverified"
  { confidenceScore := confidenceScore
    verificationStatus := verificationStatus
    breakdown :=
      { judgeScore := judgeScore
        runtimeScore := runtimeScore
        staticScore := staticScore
        docSimilarity := (normalizedDocSim : ℚ) } }

/-! ### Claim C1 -/

/-- C1 (counterexample): the claimed formula
`round(judge*0.4 + runtime*0.3 + static*0.2 + (docSimilarity*100)*0.1)` with a
single outer rounding disagrees with `calculateConfidence` at the input
`(0, 0, 0, 0.046)`: the code first rounds `docSimilarity*100 = 4.6` up to `5`,
yielding `round(0.5) = 1`, while the claimed single-round formula yields
`round(0.46) = 0`. -/
theorem C1_confidence_formula_cex :
    (calculateConfidence 0 0 0 (23/500)).confidenceScore = 1 ∧
      jsRound ((0:ℚ) * (4/10) + 0 * (3/10) + 0 * (2/10) + ((23/500) * 100) * (1/10)) = 0 := by
  constructor <;> · simp only [calculateConfidence, ENGINE_CONFIG, jsRound]; norm_num

/-- C1 (amended): `calculateConfidence` returns
`confidenceScore = round(judge*0.4 + runtime*0.3 + static*0.2 + round(docSimilarity*100)*0.1)`
(the doc-similarity contribution is itself rounded to an integer first), and
`verificationStatus` is `"verified"` iff `confidenceScore ≥ 75 ∧ runtime ≥ 70 ∧ static ≥ 60`,
else `"partial"` iff `confidenceScore ≥ 50`, else `"unverified"`. -/
theorem C1_confidence_formula_amended (j r s d : ℚ) :
    (calculateConfidence j r s d).confidenceScore
        = jsRound (j * (4/10) + r * (3/10) + s * (2/10) + (jsRound (d * 100) : ℚ) * (1/10)) ∧
      (calculateConfidence j r s d).verificationStatus
        = (if (calculateConfidence j r s d).confidenceScore ≥ 75 ∧ r ≥ 70 ∧ s ≥ 60 then
            "verified"
          else if (calculateConfidence j r s d).confidenceScore ≥ 50 then "partial"
          else "unverified") := by
  exact ⟨rfl, rfl⟩

/-! ## `validationService` — static analysis, runtime validation, fixes -/

/-- `/eval\s*\(/` match-at-position predicate. -/
def matchEval (l : List Char) : Bool :=
  "eval".data.isPrefixOf l && ((l.drop 4).dropWhile isJsWs).head? == some '('

/-- `/eval\s*\(/.test(code)`. -/
def evalTest (l : List Char) : Bool := anySuffix matchEval l

/-- `/TODO|FIXME|HACK/i.test(code)`; takes the lowercased code. -/
def todoTest (lowered : List Char) : Bool :=
  containsSub "todo".data lowered || containsSub "fixme".data lowered ||
    containsSub "hack".data lowered

/-- `/console\.(log|warn|error)/.test(code)`. -/
def consoleTest (l : List Char) : Bool :=
  containsSub "console.log".data l || containsSub "console.warn".data l ||
    containsSub "console.error".data l

/-- `/password|secret|api_key|apikey/i.test(code)`; takes the lowercased code. -/
def credsTest (lowered : List Char) : Bool :=
  containsSub "password".data lowered || containsSub "secret".data lowered ||
    containsSub "api_key".data lowered || containsSub "apikey".data lowered

/-- `/any\b/.test(code)`: an occurrence of `any` followed by a non-word
character or the end of the string. -/
def anyTypeTest (l : List Char) : Bool :=
  anySuffix (fun suf =>
    "any".data.isPrefixOf suf &&
      (match (suf.drop 3).head? with
       | none => true
       | some c => !isWordChar c)) l

/-- `/\/\/\s*@ts-ignore/.test(code)`. -/
def tsIgnoreTest (l : List Char) : Bool :=
  anySuffix (fun suf =>
    "//".data.isPrefixOf suf &&
      "@ts-ignore".data.isPrefixOf ((suf.drop 2).dropWhile isJsWs)) l

/-- `/var\s+/.test(code)`. -/
def varTest (l : List Char) : Bool :=
  anySuffix (fun suf =>
    "var".data.isPrefixOf suf &&
      (match (suf.drop 3).head? with
       | some c => isJsWs c
       | none => false)) l

/-- `/==(?!=)/.test(code)`: `==` not followed by a further `=`. -/
def looseEqTest (l : List Char) : Bool :=
  anySuffix (fun suf =>
    "==".data.isPrefixOf suf &&
      (match (suf.drop 2).head? with
       | none => true
       | some c => c != '=')) l

/-- `/except:(?!\s*\w)/.test(code)`: `except:` whose next non-whitespace
character (if any) is not a word character. -/
def bareExceptTest (l : List Char) : Bool :=
  anySuffix (fun suf =>
    "except:".data.isPrefixOf suf &&
      (match ((suf.drop 7).dropWhile isJsWs).head? with
       | none => true
       | some c => !isWordChar c)) l

/-- `/import \*/.test(code)`. -/
def importStarTest (l : List Char) : Bool := containsSub "import *".data l

structure StaticResult where
  score : ℚ
  issues : List String
deriving DecidableEq, Repr

/-- `staticAnalysis(code, language)`: pattern-matching checks, each deducting
a fixed penalty from a starting score of 100; plus a bracket-balance check
(−15); the final score is clamped into [0, 100]. -/
def staticAnalysis (code language : String) : StaticResult :=
  if code = "" ∨ (jsTrimS code).length < 10 then
    { score := 0, issues := ["Code is empty or too short"] }
  else
    let cl := code.data
    let lowered := (jsLower code).data
    let baseChecks : List (Bool × String × ℚ) :=
      [(evalTest cl, "Uses eval() — potential security risk", 15),
       (todoTest lowered, "Contains TODO/FIXME markers", 5),
       (consoleTest cl, "Contains console statements", 3),
       (credsTest lowered, "Possible hardcoded credentials", 20),
       (anyTypeTest cl, "Uses 'any' type (TypeScript)", 5),
       (tsIgnoreTest cl, "Uses @ts-ignore", 10)]
    let jsChecks : List (Bool × String × ℚ) :=
      [(varTest cl, "Uses 'var' instead of const/let", 5),
       (looseEqTest cl, "Uses loose equality (==) instead of strict (===)", 5)]
    let pyChecks : List (Bool × String × ℚ) :=
      [(bareExceptTest cl, "Bare except clause in Python", 10),
       (importStarTest cl, "Wildcard import", 5)]
    let checks := baseChecks ++
      (if jsLower language = "javascript" ∨ jsLower language = "typescript" then jsChecks
       else []) ++
      (if jsLower language = "python" then pyChecks else [])
    let afterChecks : ℚ × List String :=
      checks.foldl
        (fun p ch => if ch.1 then (p.1 - ch.2.2, p.2 ++ [ch.2.1]) else p) (100, [])
    let opens := cl.countP (fun c => c == '(' || c == '[' || c == openBraceChar)
    let closes := cl.countP (fun c => c == ')' || c == ']' || c == closeBraceChar)
    let afterBrackets : ℚ × List String :=
      if opens ≠ closes then
        (afterChecks.1 - 15,
          afterChecks.2 ++
            ["Bracket imbalance: " ++ toString opens ++ " opens vs " ++
              toString closes ++ " closes"])
      else afterChecks
    { score := max 0 (min 100 afterBrackets.1), issues := afterBrackets.2 }

/-- The dynamically-checked shape of the runtime-validator model reply
`{ "wouldPass": ..., "score": ..., "error": ... }` after `JSON.parse`:
`score` is `some` iff `typeof parsed.score === "number"`, `wouldPass` is the
truthiness of the reply field, `error` is `none` when null/absent. -/
structure RuntimeReply where
  score : Option ℚ
  wouldPass : Bool
  error : Option String
deriving DecidableEq, Repr

/-- `runtimeValidation`: the whole model call and parse live inside one
`try`; a thrown call or a parse failure degrades to score 50 with no error.
On a parsed reply, a missing numeric score falls back to 85/40 on
`wouldPass`, and `parsed.error || null` turns an empty string into null. -/
def runtimeValidation (code language taskDescription : String)
    (o : JsonOutcome RuntimeReply) : ℚ × Option String :=
  match o with
  | .thrown _ => (50, none)
  | .parseFail _ => (50, none)
  | .parsed p =>
      let score : ℚ :=
        match p.score with
        | some s => s
        | none => if p.wouldPass then 85 else 40
      (score, jsOrStr p.error none)

structure ValidationResult where
  staticScore : ℚ
  runtimeScore : ℚ
  staticIssues : List String
  runtimeError : Option String
  passed : Bool
deriving DecidableEq, Repr

/-- `validateCode`: static + runtime validation;
`passed := staticScore ≥ 50 && runtimeScore ≥ 50`. -/
def validateCode (code language taskDescription : String)
    (o : JsonOutcome RuntimeReply) : ValidationResult :=
  let sres := staticAnalysis code language
  let rres := runtimeValidation code language taskDescription o
  { staticScore := sres.score
    runtimeScore := rres.1
    staticIssues := sres.issues
    runtimeError := rres.2
    passed := decide (sres.score ≥ 50) && decide (rres.1 ≥ 50) }

/-! ### Claim C2 -/

/-- The static score is clamped into [0, 100] in every branch. -/
theorem staticAnalysis_score_bounds (code language : String) :
    0 ≤ (staticAnalysis code language).score ∧ (staticAnalysis code language).score ≤ 100 := by
  unfold staticAnalysis
  split
  · exact ⟨le_refl 0, by norm_num⟩
  · refine ⟨le_max_left 0 _, max_le (by norm_num) (min_le_left 100 _)⟩

/-- C2 (counterexample): `validateCode` does not clamp the runtime score.  On
a reply that parses to `{ score: 150, wouldPass: true, error: null }` the
returned `runtimeScore` is 150, outside [0, 100]; the claim that every output
has `runtimeScore ∈ [0, 100]` is false. -/
theorem C2_validation_bounds_cex :
    (validateCode "print(12345)" "python" "task"
        (.parsed { score := some 150, wouldPass := true, error := none })).runtimeScore = 150 ∧
      ¬((validateCode "print(12345)" "python" "task"
        (.parsed { score := some 150, wouldPass := true, error := none })).runtimeScore ≤ 100) := by
  refine ⟨rfl, ?_⟩
  show ¬((150 : ℚ) ≤ 100)
  norm_num

/-- C2 (amended): for every output of `validateCode`, `staticScore` lies in
[0, 100] and `passed` is true iff `staticScore ≥ 50` and `runtimeScore ≥ 50`;
`runtimeScore` however is taken from the model reply unclamped (with
fallbacks 85/40/50), so it need not lie in [0, 100]. -/
theorem C2_validation_pass_rule (code language taskDescription : String)
    (o : JsonOutcome RuntimeReply) :
    0 ≤ (validateCode code language taskDescription o).staticScore ∧
      (validateCode code language taskDescription o).staticScore ≤ 100 ∧
      ((validateCode code language taskDescription o).passed = true ↔
        (validateCode code language taskDescription o).staticScore ≥ 50 ∧
          (validateCode code language taskDescription o).runtimeScore ≥ 50) := by
  obtain ⟨h0, h1⟩ := staticAnalysis_score_bounds code language
  refine ⟨h0, h1, ?_⟩
  simp [validateCode]

/-! ## `codeGenerationService` — parallel dual-model generation -/

/-- First replace of `stripCodeFences`: `/^```[\w]*\n?/m` — remove the first
line-start code-fence opener (backticks, a run of word characters, an
optional newline). -/
def fenceOpenAux : Bool → List Char → List Char → List Char
  | _, acc, [] => acc.reverse
  | lineStart, acc, c :: rest =>
    if lineStart && c == backtickChar && rest.take 2 = [backtickChar, backtickChar] then
      let r1 := (rest.drop 2).dropWhile isWordChar
      let r2 :=
        match r1 with
        | '\n' :: t => t
        | _ => r1
      acc.reverse ++ r2
    else fenceOpenAux (c == '\n') (c :: acc) rest

/-- Second replace of `stripCodeFences`: `/\n?```$/m` — remove the first
(leftmost, greedy) optional-newline-plus-backticks sequence that sits at the
end of a line. -/
def fenceCloseAux : List Char → List Char → List Char
  | acc, [] => acc.reverse
  | acc, c :: rest =>
    let tryHere : Option (List Char) :=
      if c == '\n' then
        match rest with
        | b1 :: b2 :: b3 :: t =>
          if b1 == backtickChar && b2 == backtickChar && b3 == backtickChar &&
              (t.isEmpty || t.head? == some '\n') then
            some (acc.reverse ++ t)
          else none
        | _ => none
      else if c == backtickChar then
        match rest with
        | b2 :: b3 :: t =>
          if b2 == backtickChar && b3 == backtickChar &&
              (t.isEmpty || t.head? == some '\n') then
            some (acc.reverse ++ t)
          else none
        | _ => none
      else none
    match tryHere with
    | some res => res
    | none => fenceCloseAux (c :: acc) rest

/-- `stripCodeFences`: strip markdown code fences (first opener at a line
start, first closer at a line end), then trim. -/
def stripCodeFences (code : String) : String :=
  String.mk (jsTrimL (fenceCloseAux [] (fenceOpenAux true [] code.data)))

inductive CandidateRole where
  | primary
  | alternative
deriving DecidableEq, Repr

structure CodeCandidate where
  code : String
  model : String
  role : CandidateRole
  generatedAt : ℕ
deriving DecidableEq, Repr

structure GenerationResult where
  candidates : List CodeCandidate
  errors : List String
deriving DecidableEq, Repr

/-- `generateCode`: both completion calls are issued via
`Promise.allSettled`, so each outcome is inspected independently; a fulfilled
call contributes a fence-stripped candidate, a rejected one contributes an
error string; the function throws only when both calls failed, with the two
error strings joined by `"; "`. -/
def generateCode (enhancedTask docContext language : String)
    (primaryResult altResult : CallOutcome String) (now : ℕ) :
    Except String GenerationResult :=
  let afterPrimary : List CodeCandidate × List String :=
    match primaryResult with
    | .returned v =>
        ([{ code := stripCodeFences v, model := ENGINE_CONFIG.models.primaryCode,
            role := .primary, generatedAt := now }], [])
    | .thrown m => ([], ["Primary (" ++ ENGINE_CONFIG.models.primaryCode ++ "): " ++ m])
  let afterAlt : List CodeCandidate × List String :=
    match altResult with
    | .returned v =>
        (afterPrimary.1 ++
          [{ code := stripCodeFences v, model := ENGINE_CONFIG.models.alternativeCode,
             role := .alternative, generatedAt := now }], afterPrimary.2)
    | .thrown m =>
        (afterPrimary.1,
          afterPrimary.2 ++ ["Alternative (" ++ ENGINE_CONFIG.models.alternativeCode ++ "): " ++ m])
  if afterAlt.1.isEmpty then
    .error ("Both code generation models failed: " ++ String.intercalate "; " afterAlt.2)
  else
    .ok { candidates := afterAlt.1, errors := afterAlt.2 }

/-! ## `judgeService` — candidate arbitration -/

structure CandidateScore where
  correctness : ℚ
  security : ℚ
  simplicity : ℚ
  docAdherence : ℚ
  total : ℚ
deriving DecidableEq, Repr

structure JudgeResult where
  selectedIndex : ℚ
  scores : List CandidateScore
  reasoning : String
deriving DecidableEq, Repr

/-- One parsed per-candidate score tuple of the judge reply; `total` is
`none` when absent (the four sub-scores are modeled as present numbers — the
code adds them without checks). -/
structure CandidateScoreIn where
  correctness : ℚ
  security : ℚ
  simplicity : ℚ
  docAdherence : ℚ
  total : Option ℚ
deriving DecidableEq, Repr

/-- The `JSON.parse`d judge reply: `selectedIndex` is `some` iff
`typeof parsed.selectedIndex === "number"`, `scores` is `some` iff
`Array.isArray(parsed.scores)`. -/
structure JudgeParsed where
  selectedIndex : Option ℚ
  scores : Option (List CandidateScoreIn)
  reasoning : String
deriving DecidableEq, Repr

/-- The deterministic judge fallback: index 0, a flat 70 for every candidate
and criterion. -/
def judgeFallback (candidates : List CodeCandidate) : JudgeResult :=
  { selectedIndex := 0
    scores := candidates.map (fun _ =>
      { correctness := 70, security := 70, simplicity := 70, docAdherence := 70, total := 70 })
    reasoning := "Judge response could not be parsed. Defaulting to primary candidate." }

/-- `s.total || Math.round(mean of the four sub-scores)` — a missing `total`
and a zero `total` are both falsy in JS, so both trigger the recomputation. -/
def scoreWithTotal (s : CandidateScoreIn) : CandidateScore :=
  let recomputed : ℚ :=
    (jsRound ((s.correctness + s.security + s.simplicity + s.docAdherence) / 4) : ℚ)
  { correctness := s.correctness
    security := s.security
    simplicity := s.simplicity
    docAdherence := s.docAdherence
    total :=
      match s.total with
      | some t => if t = 0 then recomputed else t
      | none => recomputed }

/-- `judgeCode`: single-candidate shortcut (flat 75, no model call); the
model call itself sits outside the `try`, so a thrown call propagates; a
parse failure or a reply without a numeric `selectedIndex` / array `scores`
falls back deterministically; otherwise `selectedIndex` is clamped into
candidate bounds and missing totals are recomputed. -/
def judgeCode (candidates : List CodeCandidate) (taskDescription docContext : String)
    (o : JsonOutcome JudgeParsed) : Except String JudgeResult :=
  if candidates.length = 1 then
    .ok { selectedIndex := 0
          scores := [{ correctness := 75, security := 75, simplicity := 75,
                       docAdherence := 75, total := 75 }]
          reasoning := "Only one candidate was generated. Scored based on general quality assessment." }
  else
    match o with
    | .thrown m => .error m
    | .parseFail _ => .ok (judgeFallback candidates)
    | .parsed p =>
        match p.selectedIndex, p.scores with
        | some idx, some scores =>
            .ok { selectedIndex := max 0 (min idx ((candidates.length : ℚ) - 1))
                  scores := scores.map scoreWithTotal
                  reasoning := p.reasoning }
        | _, _ => .ok (judgeFallback candidates)

/-! ### Claim C3 -/

/-- C3: for a non-empty candidate list, whenever `judgeCode` returns a
result its `selectedIndex` lies in `[0, N-1]`; and for a multi-candidate
judging whose reply is malformed (unparseable), the result is the
deterministic fallback: index 0 with a flat synthetic score of 70 for every
candidate. -/
theorem C3_judge_index_bound (cs : List CodeCandidate) (t d : String)
    (o : JsonOutcome JudgeParsed) (r : JudgeResult)
    (hne : cs ≠ []) (hok : judgeCode cs t d o = .ok r) :
    (0 ≤ r.selectedIndex ∧ r.selectedIndex ≤ (cs.length : ℚ) - 1) ∧
      (∀ m, o = .parseFail m → 1 < cs.length →
        r.selectedIndex = 0 ∧
          r.scores = cs.map (fun _ =>
            { correctness := 70, security := 70, simplicity := 70,
              docAdherence := 70, total := 70 })) := by
  have hlen : 1 ≤ cs.length := by
    cases cs with
    | nil => exact absurd rfl hne
    | cons a l => exact Nat.succ_le_succ (Nat.zero_le _)
  have hlenQ : (1 : ℚ) ≤ (cs.length : ℚ) := by exact_mod_cast hlen
  unfold judgeCode at hok
  by_cases h1 : cs.length = 1
  · simp only [h1, if_pos rfl] at hok
    cases hok
    constructor
    · constructor
      · norm_num
      · rw [h1]; norm_num
    · intro m _ hgt
      rw [h1] at hgt
      exact absurd hgt (by norm_num)
  · simp only [if_neg h1] at hok
    cases o with
    | thrown m => exact absurd hok (by simp)
    | parseFail m =>
      simp only [Except.ok.injEq] at hok
      subst hok
      refine ⟨⟨le_refl 0, by simp only [judgeFallback]; linarith⟩, ?_⟩
      intro m' _ _
      exact ⟨rfl, rfl⟩
    | parsed p =>
      match hsel : p.selectedIndex, hsc : p.scores with
      | some idx, some scores =>
        simp only [hsel, hsc, Except.ok.injEq] at hok
        subst hok
        refine ⟨⟨le_max_left 0 _, ?_⟩, ?_⟩
        · exact max_le (by linarith) (min_le_right idx _)
        · intro m hm
          exact absurd hm (by simp)
      | some idx, none =>
        simp only [hsel, hsc, Except.ok.injEq] at hok
        subst hok
        refine ⟨⟨le_refl 0, by simp only [judgeFallback]; linarith⟩,
          fun m hm _ => absurd hm (by simp)⟩
      | none, some scores =>
        simp only [hsel, hsc, Except.ok.injEq] at hok
        subst hok
        refine ⟨⟨le_refl 0, by simp only [judgeFallback]; linarith⟩,
          fun m hm _ => absurd hm (by simp)⟩
      | none, none =>
        simp only [hsel, hsc, Except.ok.injEq] at hok
        subst hok
        refine ⟨⟨le_refl 0, by simp only [judgeFallback]; linarith⟩,
          fun m hm _ => absurd hm (by simp)⟩

/-- C3 witness: two candidates and a reply carrying the out-of-range index
99; the clamped selected index is 1, inside `[0, 1]`. -/
theorem C3_judge_index_bound_witness :
    (0 ≤ (JudgeResult.mk 1 [] "rsn").selectedIndex ∧
        (JudgeResult.mk 1 [] "rsn").selectedIndex ≤
          (([{ code := "a", model := "m", role := .primary, generatedAt := 0 },
              { code := "b", model := "m", role := .alternative, generatedAt := 0 }] :
                List CodeCandidate).length : ℚ) - 1) ∧
      (∀ m, (JsonOutcome.parsed (JudgeParsed.mk (some 99) (some []) "rsn")) =
            JsonOutcome.parseFail m →
          1 < ([{ code := "a", model := "m", role := .primary, generatedAt := 0 },
                { code := "b", model := "m", role := .alternative, generatedAt := 0 }] :
                  List CodeCandidate).length →
          (JudgeResult.mk 1 [] "rsn").selectedIndex = 0 ∧
            (JudgeResult.mk 1 [] "rsn").scores =
              ([{ code := "a", model := "m", role := .primary, generatedAt := 0 },
                { code := "b", model := "m", role := .alternative, generatedAt := 0 }] :
                    List CodeCandidate).map (fun _ =>
                { correctness := 70, security := 70, simplicity := 70,
                  docAdherence := 70, total := 70 })) :=
  C3_judge_index_bound
    [{ code := "a", model := "m", role := .primary, generatedAt := 0 },
     { code := "b", model := "m", role := .alternative, generatedAt := 0 }]
    "t" "d" (.parsed (JudgeParsed.mk (some 99) (some []) "rsn"))
    (JudgeResult.mk 1 [] "rsn") (by simp)
    (by simp only [judgeCode]; norm_num)

/-! ### Claim C4 -/

/-- C4 (counterexample): with two candidates, `judgeCode`'s model call sits
outside its `try` block, so a thrown model call propagates out of
`judgeCode` instead of degrading to the fallback — the claim that `judgeCode`
never throws for any model-call outcome is false. -/
theorem C4_judge_throws_cex :
    judgeCode
      [{ code := "a", model := "m1", role := .primary, generatedAt := 0 },
       { code := "b", model := "m2", role := .alternative, generatedAt := 0 }]
      "task" "docs" (.thrown "Azure API error (gpt-4o-mini): socket hang up")
      = .error "Azure API error (gpt-4o-mini): socket hang up" := by
  rfl

/-- C4 (amended): `validateCode` never throws — a thrown runtime-validation
call or an unparseable reply degrades to the neutral score 50 with no error —
and `judgeCode` never throws on a malformed (unparseable or badly shaped)
reply; but when the judging model call itself throws and there is more than
one candidate (so the call is actually made), `judgeCode` propagates that
exception. -/
theorem C4_no_throw_amended (code lang task : String)
    (cs : List CodeCandidate) (t d : String) :
    (∀ m, (validateCode code lang task (.thrown m)).runtimeScore = 50 ∧
        (validateCode code lang task (.thrown m)).runtimeError = none) ∧
      (∀ m, (validateCode code lang task (.parseFail m)).runtimeScore = 50 ∧
        (validateCode code lang task (.parseFail m)).runtimeError = none) ∧
      (∀ m, (judgeCode cs t d (.parseFail m)).isOk = true) ∧
      (∀ p, (judgeCode cs t d (.parsed p)).isOk = true) ∧
      (∀ m, cs.length ≠ 1 → judgeCode cs t d (.thrown m) = .error m) := by
  refine ⟨fun m => ⟨rfl, rfl⟩, fun m => ⟨rfl, rfl⟩, ?_, ?_, ?_⟩
  · intro m
    unfold judgeCode
    split
    · rfl
    · rfl
  · intro p
    unfold judgeCode
    split
    · rfl
    · match hsel : p.selectedIndex, hsc : p.scores with
      | some idx, some scores => simp [hsel, hsc, Except.isOk, Except.toBool]
      | some idx, none => simp [hsel, hsc, Except.isOk, Except.toBool]
      | none, some scores => simp [hsel, hsc, Except.isOk, Except.toBool]
      | none, none => simp [hsel, hsc, Except.isOk, Except.toBool]
  · intro m h1
    unfold judgeCode
    simp [h1]

/-- C4 witness: with two candidates (length ≠ 1) a thrown judge call is
propagated, and a thrown runtime validation degrades to score 50. -/
theorem C4_no_throw_amended_witness :
    (∀ m, (validateCode "print(12345)" "python" "t" (.thrown m)).runtimeScore = 50 ∧
        (validateCode "print(12345)" "python" "t" (.thrown m)).runtimeError = none) ∧
      (∀ m, (validateCode "print(12345)" "python" "t" (.parseFail m)).runtimeScore = 50 ∧
        (validateCode "print(12345)" "python" "t" (.parseFail m)).runtimeError = none) ∧
      (∀ m, (judgeCode
          [{ code := "a", model := "m1", role := .primary, generatedAt := 0 },
           { code := "b", model := "m2", role := .alternative, generatedAt := 0 }]
          "t" "d" (.parseFail m)).isOk = true) ∧
      (∀ p, (judgeCode
          [{ code := "a", model := "m1", role := .primary, generatedAt := 0 },
           { code := "b", model := "m2", role := .alternative, generatedAt := 0 }]
          "t" "d" (.parsed p)).isOk = true) ∧
      (∀ m, ([{ code := "a", model := "m1", role := .primary, generatedAt := 0 },
              { code := "b", model := "m2", role := .alternative, generatedAt := 0 }] :
                List CodeCandidate).length ≠ 1 →
        judgeCode
          [{ code := "a", model := "m1", role := .primary, generatedAt := 0 },
           { code := "b", model := "m2", role := .alternative, generatedAt := 0 }]
          "t" "d" (.thrown m) = .error m) :=
  C4_no_throw_amended "print(12345)" "python" "t"
    [{ code := "a", model := "m1", role := .primary, generatedAt := 0 },
     { code := "b", model := "m2", role := .alternative, generatedAt := 0 }] "t" "d"

/-! ### Claim C5 -/

/-- C5: `generateCode` throws only when both model calls fail — and then its
message joins both failure reasons — while a single surviving call yields
exactly one candidate with that call's role plus an `errors` list holding the
other call's failure reason; two successes yield two candidates and no
errors. -/
theorem C5_generation_fallback (task doc lang : String)
    (p a : CallOutcome String) (now : ℕ) :
    (∀ m1 m2, p = .thrown m1 → a = .thrown m2 →
        generateCode task doc lang p a now =
          .error ("Both code generation models failed: " ++
            String.intercalate "; "
              ["Primary (gpt-4.1-mini): " ++ m1, "Alternative (gpt-4o-mini): " ++ m2])) ∧
      (∀ t m, p = .returned t → a = .thrown m →
        generateCode task doc lang p a now =
          .ok { candidates := [{ code := stripCodeFences t, model := "gpt-4.1-mini",
                                 role := .primary, generatedAt := now }],
                errors := ["Alternative (gpt-4o-mini): " ++ m] }) ∧
      (∀ m t, p = .thrown m → a = .returned t →
        generateCode task doc lang p a now =
          .ok { candidates := [{ code := stripCodeFences t, model := "gpt-4o-mini",
                                 role := .alternative, generatedAt := now }],
                errors := ["Primary (gpt-4.1-mini): " ++ m] }) ∧
      (∀ t1 t2, p = .returned t1 → a = .returned t2 →
        generateCode task doc lang p a now =
          .ok { candidates := [{ code := stripCodeFences t1, model := "gpt-4.1-mini",
                                 role := .primary, generatedAt := now },
                               { code := stripCodeFences t2, model := "gpt-4o-mini",
                                 role := .alternative, generatedAt := now }],
                errors := [] }) := by
  refine ⟨?_, ?_, ?_, ?_⟩
  · rintro m1 m2 rfl rfl; rfl
  · rintro t m rfl rfl; rfl
  · rintro m t rfl rfl; rfl
  · rintro t1 t2 rfl rfl; rfl

/-- C5 witness: a surviving primary with a failed alternative yields the
single primary candidate and the alternative's failure reason. -/
theorem C5_generation_fallback_witness :
    generateCode "t" "d" "python" (.returned "codeA") (.thrown "boom") 0 =
      .ok { candidates := [{ code := stripCodeFences "codeA", model := "gpt-4.1-mini",
                             role := .primary, generatedAt := 0 }],
            errors := ["Alternative (gpt-4o-mini): " ++ "boom"] } :=
  (C5_generation_fallback "t" "d" "python" (.returned "codeA") (.thrown "boom") 0).2.1
    "codeA" "boom" rfl rfl

/-! ## `azureClient` — gateway retry loops -/

/-- The fields of a thrown API error inspected by the retry logic. -/
structure ApiError where
  status : Option ℕ
  code : Option String
  message : String
deriving DecidableEq, Repr

/-- Outcome of a single underlying API attempt. -/
inductive AttemptResult (α : Type) where
  | ok (v : α)
  | err (e : ApiError)
deriving DecidableEq, Repr

/-- The `isRetryable` test of `chatCompletion`: HTTP 429/500/503 or a
connection reset / timeout error code. -/
def isRetryable (e : ApiError) : Bool :=
  e.status == some 429 || e.status == some 500 || e.status == some 503 ||
    e.code == some "ECONNRESET" || e.code == some "ETIMEDOUT"

/-- `min(baseDelayMs * 2^(attempt-1), maxDelayMs)`. -/
def backoffDelay (attempt : ℕ) : ℕ :=
  min (ENGINE_CONFIG.retry.baseDelayMs * 2 ^ (attempt - 1)) ENGINE_CONFIG.retry.maxDelayMs

/-- Observable trace of one gateway call: its final result, the backoff
delays slept, and how many underlying attempts were made. -/
structure GatewayRun (α : Type) where
  out : Except String α
  delays : List ℕ
  calls : ℕ
deriving Repr

/-- The `for (attempt = 1; attempt <= maxAttempts; attempt++)` loop of
`chatCompletion`, with `fuel = maxAttempts - attempt + 1` remaining
iterations.  An empty (whitespace-only) reply throws inside the `try`; its
error has no `status`/`code`, is therefore not retryable, and is rethrown
wrapped, like any other non-retryable error. -/
def chatAttemptLoop (model : String) (o : ℕ → AttemptResult String) :
    ℕ → ℕ → List ℕ → ℕ → GatewayRun String
  | _, 0, delays, calls =>
      { out := .error ("Azure API failed after " ++
          toString ENGINE_CONFIG.retry.maxAttempts ++ " attempts"),
        delays := delays, calls := calls }
  | attempt, fuel + 1, delays, calls =>
      match o attempt with
      | .ok content =>
          let trimmed := jsTrimS content
          if trimmed = "" then
            { out := .error ("Azure API error (" ++ model ++ "): Empty response from Azure OpenAI"),
              delays := delays, calls := calls + 1 }
          else { out := .ok trimmed, delays := delays, calls := calls + 1 }
      | .err e =>
          if attempt = ENGINE_CONFIG.retry.maxAttempts ∨ isRetryable e = false then
            { out := .error ("Azure API error (" ++ model ++ "): " ++ e.message),
              delays := delays, calls := calls + 1 }
          else
            chatAttemptLoop model o (attempt + 1) fuel
              (delays ++ [backoffDelay attempt]) (calls + 1)

/-- `chatCompletion(options)` with the per-attempt outcomes supplied. -/
def chatCompletion (model : String) (o : ℕ → AttemptResult String) : GatewayRun String :=
  chatAttemptLoop model o 1 ENGINE_CONFIG.retry.maxAttempts [] 0

/-- The retry loop of `createEmbedding`: unlike `chatCompletion`, its catch
block has no retryability test — every error short of the attempt budget is
retried. -/
def embedAttemptLoop (o : ℕ → AttemptResult (List ℚ)) :
    ℕ → ℕ → List ℕ → ℕ → GatewayRun (List ℚ)
  | _, 0, delays, calls =>
      { out := .error "Embedding failed after retries", delays := delays, calls := calls }
  | attempt, fuel + 1, delays, calls =>
      match o attempt with
      | .ok emb => { out := .ok emb, delays := delays, calls := calls + 1 }
      | .err e =>
          if attempt = ENGINE_CONFIG.retry.maxAttempts then
            { out := .error ("Embedding API error: " ++ e.message),
              delays := delays, calls := calls + 1 }
          else
            embedAttemptLoop o (attempt + 1) fuel
              (delays ++ [backoffDelay attempt]) (calls + 1)

/-- `createEmbedding(text)` with the per-attempt outcomes supplied. -/
def createEmbedding (o : ℕ → AttemptResult (List ℚ)) : GatewayRun (List ℚ) :=
  embedAttemptLoop o 1 ENGINE_CONFIG.retry.maxAttempts [] 0

/-! ### Claim C8 -/

/-- The chat retry loop makes at most `fuel` further attempts. -/
theorem chatAttemptLoop_calls_le (model : String) (o : ℕ → AttemptResult String) :
    ∀ fuel attempt delays calls,
      (chatAttemptLoop model o attempt fuel delays calls).calls ≤ calls + fuel := by
  intro fuel
  induction fuel with
  | zero => intro attempt delays calls; simp [chatAttemptLoop]
  | succ n ih =>
    intro attempt delays calls
    rw [chatAttemptLoop]
    cases ho : o attempt with
    | ok content =>
      dsimp only
      split
      · show calls + 1 ≤ calls + (n + 1)
        omega
      · show calls + 1 ≤ calls + (n + 1)
        omega
    | err e =>
      dsimp only
      split
      · show calls + 1 ≤ calls + (n + 1)
        omega
      · exact le_trans (ih (attempt + 1) _ (calls + 1)) (by omega)

/-- The embedding retry loop makes at most `fuel` further attempts. -/
theorem embedAttemptLoop_calls_le (o : ℕ → AttemptResult (List ℚ)) :
    ∀ fuel attempt delays calls,
      (embedAttemptLoop o attempt fuel delays calls).calls ≤ calls + fuel := by
  intro fuel
  induction fuel with
  | zero => intro attempt delays calls; simp [embedAttemptLoop]
  | succ n ih =>
    intro attempt delays calls
    rw [embedAttemptLoop]
    cases ho : o attempt with
    | ok emb =>
      show calls + 1 ≤ calls + (n + 1)
      omega
    | err e =>
      dsimp only
      split
      · show calls + 1 ≤ calls + (n + 1)
        omega
      · exact le_trans (ih (attempt + 1) _ (calls + 1)) (by omega)

/-- C8 (counterexample): `createEmbedding` has no retryability test.  A first
attempt failing with HTTP 400 — not retryable per the claimed policy — is
nevertheless retried: the run sleeps a 1000 ms backoff, makes a second
attempt, and succeeds, instead of propagating the 400 immediately. -/
theorem C8_retry_policy_cex :
    isRetryable { status := some 400, code := none, message := "bad request" } = false ∧
      createEmbedding (fun n =>
          if n = 1 then .err { status := some 400, code := none, message := "bad request" }
          else .ok [(1 : ℚ)]) =
        { out := .ok [(1 : ℚ)], delays := [1000], calls := 2 } := by
  exact ⟨rfl, rfl⟩

/-- C8 (amended): both gateway calls are bounded by `maxAttempts = 3` and use
the backoff `min(base·2^(k-1), cap)` before attempt `k+1`, and fail with an
explicit wrapped error once the budget is exhausted; `chatCompletion` retries
only retryable errors (429/500/503/ECONNRESET/ETIMEDOUT) and propagates any
other error immediately, while `createEmbedding` retries every error. -/
theorem C8_retry_policy_amended (model : String) (o : ℕ → AttemptResult String)
    (oe : ℕ → AttemptResult (List ℚ)) :
    ((chatCompletion model o).calls ≤ ENGINE_CONFIG.retry.maxAttempts ∧
        (createEmbedding oe).calls ≤ ENGINE_CONFIG.retry.maxAttempts) ∧
      (∀ e, o 1 = .err e → isRetryable e = false →
        chatCompletion model o =
          { out := .error ("Azure API error (" ++ model ++ "): " ++ e.message),
            delays := [], calls := 1 }) ∧
      (∀ e1 e2, o 1 = .err e1 → isRetryable e1 = true → o 2 = .err e2 →
          isRetryable e2 = false →
        chatCompletion model o =
          { out := .error ("Azure API error (" ++ model ++ "): " ++ e2.message),
            delays := [min (1000 * 2 ^ 0) 10000], calls := 2 }) ∧
      (∀ e1 e2 e3, o 1 = .err e1 → isRetryable e1 = true → o 2 = .err e2 →
          isRetryable e2 = true → o 3 = .err e3 →
        chatCompletion model o =
          { out := .error ("Azure API error (" ++ model ++ "): " ++ e3.message),
            delays := [min (1000 * 2 ^ 0) 10000, min (1000 * 2 ^ 1) 10000], calls := 3 }) ∧
      (∀ e1 t, o 1 = .err e1 → isRetryable e1 = true → o 2 = .ok t → jsTrimS t ≠ "" →
        chatCompletion model o =
          { out := .ok (jsTrimS t), delays := [min (1000 * 2 ^ 0) 10000], calls := 2 }) ∧
      (∀ e1 v, oe 1 = .err e1 → oe 2 = .ok v →
        createEmbedding oe =
          { out := .ok v, delays := [min (1000 * 2 ^ 0) 10000], calls := 2 }) ∧
      (∀ e1 e2 e3, oe 1 = .err e1 → oe 2 = .err e2 → oe 3 = .err e3 →
        createEmbedding oe =
          { out := .error ("Embedding API error: " ++ e3.message),
            delays := [min (1000 * 2 ^ 0) 10000, min (1000 * 2 ^ 1) 10000], calls := 3 }) := by
  refine ⟨⟨?_, ?_⟩, ?_, ?_, ?_, ?_, ?_, ?_⟩
  · exact chatAttemptLoop_calls_le model o 3 1 [] 0
  · exact embedAttemptLoop_calls_le oe 3 1 [] 0
  · intro e h1 hr
    simp [chatCompletion, chatAttemptLoop, h1, hr]
  · intro e1 e2 h1 hr1 h2 hr2
    simp [chatCompletion, chatAttemptLoop, h1, hr1, h2, hr2, backoffDelay, ENGINE_CONFIG]
  · intro e1 e2 e3 h1 hr1 h2 hr2 h3
    simp [chatCompletion, chatAttemptLoop, h1, hr1, h2, hr2, h3, backoffDelay, ENGINE_CONFIG]
  · intro e1 t h1 hr1 h2 ht
    simp [chatCompletion, chatAttemptLoop, h1, hr1, h2, ht, backoffDelay, ENGINE_CONFIG]
  · intro e1 v h1 h2
    simp [createEmbedding, embedAttemptLoop, h1, h2, backoffDelay, ENGINE_CONFIG]
  · intro e1 e2 e3 h1 h2 h3
    simp [createEmbedding, embedAttemptLoop, h1, h2, h3, backoffDelay, ENGINE_CONFIG]

/-- C8 witness: a retryable 429 followed by a success for `chatCompletion`,
and a 500 followed by a success for `createEmbedding`, each with the single
1000 ms backoff. -/
theorem C8_retry_policy_amended_witness :
    chatCompletion "gpt-4o-mini"
        (fun n => if n = 1 then .err { status := some 429, code := none, message := "rate" }
                  else .ok " hi ") =
      { out := .ok (jsTrimS " hi "), delays := [min (1000 * 2 ^ 0) 10000], calls := 2 } ∧
    createEmbedding
        (fun n => if n = 1 then .err { status := some 500, code := none, message := "ise" }
                  else .ok [(2 : ℚ)]) =
      { out := .ok [(2 : ℚ)], delays := [min (1000 * 2 ^ 0) 10000], calls := 2 } := by
  constructor
  · exact (C8_retry_policy_amended "gpt-4o-mini"
      (fun n => if n = 1 then .err { status := some 429, code := none, message := "rate" }
                else .ok " hi ")
      (fun _ => .ok [])).2.2.2.2.1
      { status := some 429, code := none, message := "rate" } " hi " rfl rfl rfl
      (by simp [jsTrimS, jsTrimL, isJsWs])
  · exact (C8_retry_policy_amended "gpt-4o-mini" (fun _ => .ok "x")
      (fun n => if n = 1 then .err { status := some 500, code := none, message := "ise" }
                else .ok [(2 : ℚ)])).2.2.2.2.2.1
      { status := some 500, code := none, message := "ise" } [(2 : ℚ)] rfl rfl

/-! ## `DocChunk` model and `embeddingService` — cache-first RAG retrieval -/

/-- One stored `DocChunk` document. -/
structure StoredChunk where
  docId : String
  url : String
  urlHash : String
  version : String
  chunkIndex : ℕ
  text : String
  embedding : List ℚ
  tokenCount : ℕ
deriving DecidableEq, Repr

/-- `cosineSimilarity(a, b)` from `azureClient`: 0 on length mismatch or a
zero denominator, else the normalized dot product.  `Math.sqrt` is modeled by
`Rat.sqrt`, which is exact on perfect squares (all concrete inputs used in
this file have perfect-square magnitudes). -/
def cosineSimilarity (a b : List ℚ) : ℚ :=
  if a.length ≠ b.length then 0
  else
    let dot := (a.zip b).foldl (fun acc p => acc + p.1 * p.2) 0
    let magA := a.foldl (fun acc x => acc + x * x) 0
    let magB := b.foldl (fun acc x => acc + x * x) 0
    let denom := Rat.sqrt magA * Rat.sqrt magB
    if denom = 0 then 0 else dot / denom

/-- Insert into a descending-sorted list, after any equal-scored entries
(stability). -/
def insertDesc (x : String × ℚ) : List (String × ℚ) → List (String × ℚ)
  | [] => [x]
  | y :: ys => if y.2 < x.2 then x :: y :: ys else y :: insertDesc x ys

/-- `array.sort((a, b) => b.score - a.score)`: JS `Array.prototype.sort` is
stable, so this is the stable descending sort, modeled by stable insertion
sort. -/
def sortByScoreDesc (l : List (String × ℚ)) : List (String × ℚ) :=
  l.foldl (fun acc x => insertDesc x acc) []

/-- One step of the `/\n\n+/` splitter state machine: parts so far, the
current part (reversed), and the length of the pending newline run. -/
def paraStep (st : List (List Char) × List Char × ℕ) (c : Char) :
    List (List Char) × List Char × ℕ :=
  if c = '\n' then (st.1, st.2.1, st.2.2 + 1)
  else if st.2.2 ≥ 2 then (st.1 ++ [st.2.1.reverse], [c], 0)
  else (st.1, c :: (List.replicate st.2.2 '\n' ++ st.2.1), 0)

/-- `text.split(/\n\n+/)`: split on maximal runs of at least two newlines
(a single newline stays inside its part). -/
def splitParagraphs (text : String) : List String :=
  let fin := text.data.foldl paraStep ([], [], 0)
  if fin.2.2 ≥ 2 then
    (fin.1 ++ [fin.2.1.reverse, []]).map String.mk
  else
    (fin.1 ++ [(List.replicate fin.2.2 '\n' ++ fin.2.1).reverse]).map String.mk

/-- `splitIntoChunks(text, maxLen)` of the embedding service: accumulate
paragraphs up to roughly `maxLen` characters. -/
def splitIntoChunks (text : String) (maxLen : ℕ) : List String :=
  let step := fun (st : List String × String) (para : String) =>
    if maxLen < st.2.length + para.length ∧ 0 < st.2.length then
      (st.1 ++ [jsTrimS st.2], para)
    else
      (st.1, st.2 ++ (if st.2 = "" then "" else "\n\n") ++ para)
  let fin := (splitParagraphs text).foldl step ([], "")
  if jsTrimS fin.2 ≠ "" then fin.1 ++ [jsTrimS fin.2] else fin.1

/-- Truthiness of an optional string option field (`undefined`/empty are
falsy). -/
def jsTruthyStrOpt : Option String → Bool
  | some s => s ≠ ""
  | none => false

structure RetrieveResult where
  context : String
  similarity : ℚ
deriving DecidableEq, Repr

/-- The embedding-call outcomes `retrieveRelevantDocs` can consume: the task
embedding of the cache-first strategy, the task embedding of the in-memory
strategy, and the per-chunk embeddings of the in-memory strategy. -/
structure RetrieveEnv where
  taskEmbedCached : CallOutcome (List ℚ)
  taskEmbedMem : CallOutcome (List ℚ)
  chunkEmbed : ℕ → CallOutcome (List ℚ)

/-- The cache-first scoring pipeline of Strategy 1: keep chunks that carry an
embedding, score them against the task embedding, keep scores at or above
the threshold, sort descending, take the top `maxChunks`. -/
def cachedScored (taskEmbedding : List ℚ) (cachedChunks : List StoredChunk)
    (similarityThreshold : ℚ) (maxChunks : ℕ) : List (String × ℚ) :=
  ((sortByScoreDesc
      (((cachedChunks.filter (fun c => !c.embedding.isEmpty)).map
          (fun c => (c.text, cosineSimilarity taskEmbedding c.embedding))).filter
        (fun p => similarityThreshold ≤ p.2))).take maxChunks)

/-- `retrieveRelevantDocs(taskDescription, docContent, options)`.  The
`DocChunk.find` query result (already sorted by `chunkIndex`) is supplied as
`cachedChunks`; it is consulted only when `docUrl` or `docId` is truthy.  Any
exception inside the body (a thrown embedding call) is caught by the
function's catch-all, which returns the raw document text with similarity
0.5. -/
def retrieveRelevantDocs (taskDescription docContent : String)
    (docUrl docId : Option String) (cachedChunks : List StoredChunk)
    (env : RetrieveEnv) (maxChunks : ℕ := 5) (similarityThreshold : ℚ := 4/10) :
    RetrieveResult :=
  -- Strategy 1: cache-first retrieval
  if (jsTruthyStrOpt docUrl || jsTruthyStrOpt docId) && !cachedChunks.isEmpty then
    match env.taskEmbedCached with
    | .thrown _ => { context := docContent, similarity := 1/2 }
    | .returned taskEmbedding =>
        let scored := cachedScored taskEmbedding cachedChunks similarityThreshold maxChunks
        if !scored.isEmpty then
          { context := String.intercalate "\n\n---\n\n" (scored.map (·.1))
            similarity := (scored.foldl (fun acc c => acc + c.2) 0) / (scored.length : ℚ) }
        else
          -- all chunks below threshold: first maxChunks chunks, fixed 0.5
          { context :=
              String.intercalate "\n\n---\n\n" ((cachedChunks.take maxChunks).map (·.text))
            similarity := 1/2 }
  -- Strategy 2: in-memory chunking
  else if docContent = "" ∨ (jsTrimS docContent).length < 50 then
    { context :=
        "Documentation URL: " ++ (match docUrl with | some u => if u = "" then "N/A" else u | none => "N/A") ++
          "\nPlease implement based on standard " ++
          (if jsTruthyStrOpt docUrl then "the provided" else "") ++
          " documentation and best practices."
      similarity := 3/10 }
  else
    let chunks := splitIntoChunks docContent 500
    if chunks.length ≤ 2 then { context := docContent, similarity := 1 }
    else
      match env.taskEmbedMem with
      | .thrown _ => { context := docContent, similarity := 1/2 }
      | .returned taskEmbedding =>
          let scoredChunks := chunks.enum.map (fun p =>
            match env.chunkEmbed p.1 with
            | .thrown _ => (p.2, (0 : ℚ))
            | .returned ce => (p.2, cosineSimilarity taskEmbedding ce))
          let sorted := sortByScoreDesc scoredChunks
          let topChunks := (sorted.filter (fun c => similarityThreshold ≤ c.2)).take maxChunks
          let selected := if !topChunks.isEmpty then topChunks else sorted.take maxChunks
          { context := String.intercalate "\n\n---\n\n" (selected.map (·.1))
            similarity := (selected.foldl (fun acc c => acc + c.2) 0) / (selected.length : ℚ) }

/-! ### Claim C7 -/

/-- When every embedded chunk scores strictly below the threshold, the
cache-first scoring pipeline selects nothing. -/
theorem cachedScored_eq_nil (e : List ℚ) (chunks : List StoredChunk) (th : ℚ) (maxChunks : ℕ)
    (h : ∀ c ∈ chunks, c.embedding.isEmpty = false → cosineSimilarity e c.embedding < th) :
    cachedScored e chunks th maxChunks = [] := by
  unfold cachedScored
  have hfil :
      (((chunks.filter (fun c => !c.embedding.isEmpty)).map
          (fun c => (c.text, cosineSimilarity e c.embedding))).filter
        (fun p => th ≤ p.2)) = [] := by
    rw [List.filter_eq_nil_iff]
    intro p hp
    rcases List.mem_map.mp hp with ⟨c, hc, rfl⟩
    rcases List.mem_filter.mp hc with ⟨hcmem, hcemb⟩
    have : cosineSimilarity e c.embedding < th :=
      h c hcmem (by revert hcemb; cases c.embedding.isEmpty <;> simp)
    simp only [decide_eq_true_eq]
    exact not_le.mpr this
  rw [hfil]
  simp [sortByScoreDesc]

/-- Helper: the cache-first path with everything below threshold returns the
first `maxChunks` stored chunks in chunk-index order with similarity 0.5. -/
theorem retrieveCachedBelowThreshold (task docContent : String) (docUrl docId : Option String)
    (chunks : List StoredChunk) (env : RetrieveEnv) (maxChunks : ℕ) (th : ℚ) (e : List ℚ)
    (href : (jsTruthyStrOpt docUrl || jsTruthyStrOpt docId) = true)
    (hne : chunks ≠ [])
    (hemb : env.taskEmbedCached = .returned e)
    (hall : ∀ c ∈ chunks, c.embedding.isEmpty = false → cosineSimilarity e c.embedding < th) :
    retrieveRelevantDocs task docContent docUrl docId chunks env maxChunks th =
      { context := String.intercalate "\n\n---\n\n" ((chunks.take maxChunks).map (·.text))
        similarity := 1/2 } := by
  have hisEmpty : chunks.isEmpty = false := by
    cases hch : chunks.isEmpty
    · rfl
    · exact absurd (List.isEmpty_iff.mp hch) hne
  have hnil := cachedScored_eq_nil e chunks th maxChunks hall
  unfold retrieveRelevantDocs
  rw [href, hisEmpty]
  simp only [Bool.and_true, Bool.not_false, if_true, hemb, hnil]
  rfl

/-- Helper: the cache-first path with a non-empty threshold selection returns
the selected chunks with the mean of their scores. -/
theorem retrieveCachedSelected (task docContent : String) (docUrl docId : Option String)
    (chunks : List StoredChunk) (env : RetrieveEnv) (maxChunks : ℕ) (th : ℚ) (e : List ℚ)
    (href : (jsTruthyStrOpt docUrl || jsTruthyStrOpt docId) = true)
    (hne : chunks ≠ [])
    (hemb : env.taskEmbedCached = .returned e)
    (hsel : cachedScored e chunks th maxChunks ≠ []) :
    retrieveRelevantDocs task docContent docUrl docId chunks env maxChunks th =
      { context :=
          String.intercalate "\n\n---\n\n" ((cachedScored e chunks th maxChunks).map (·.1))
        similarity :=
          ((cachedScored e chunks th maxChunks).foldl (fun acc c => acc + c.2) 0) /
            ((cachedScored e chunks th maxChunks).length : ℚ) } := by
  have hisEmpty : chunks.isEmpty = false := by
    cases hch : chunks.isEmpty
    · rfl
    · exact absurd (List.isEmpty_iff.mp hch) hne
  have hselEmpty : (cachedScored e chunks th maxChunks).isEmpty = false := by
    cases hch : (cachedScored e chunks th maxChunks).isEmpty
    · rfl
    · exact absurd (List.isEmpty_iff.mp hch) hsel
  unfold retrieveRelevantDocs
  rw [href, hisEmpty]
  simp only [Bool.and_true, Bool.not_false, if_true, hemb, hselEmpty]

/-- C7 (amended): in the cache-first path (a document reference is supplied
and stored chunks exist, with the task embedding available), when no embedded
chunk reaches the similarity threshold the result falls back to the *first*
`maxChunks` stored chunks in chunk-index order (not the top-scored ones) with
the fixed similarity 0.5 — never empty context; when the threshold selection
is non-empty, the context is the selected top chunks and the similarity is
the arithmetic mean of their cosine scores. -/
theorem C7_rag_fallback (task docContent : String) (docUrl docId : Option String)
    (chunks : List StoredChunk) (env : RetrieveEnv) (maxChunks : ℕ) (th : ℚ) (e : List ℚ)
    (href : (jsTruthyStrOpt docUrl || jsTruthyStrOpt docId) = true)
    (hne : chunks ≠ [])
    (hemb : env.taskEmbedCached = .returned e) :
    ((∀ c ∈ chunks, c.embedding.isEmpty = false → cosineSimilarity e c.embedding < th) →
        retrieveRelevantDocs task docContent docUrl docId chunks env maxChunks th =
          { context :=
              String.intercalate "\n\n---\n\n" ((chunks.take maxChunks).map (·.text))
            similarity := 1/2 }) ∧
      (cachedScored e chunks th maxChunks ≠ [] →
        retrieveRelevantDocs task docContent docUrl docId chunks env maxChunks th =
          { context :=
              String.intercalate "\n\n---\n\n"
                ((cachedScored e chunks th maxChunks).map (·.1))
            similarity :=
              ((cachedScored e chunks th maxChunks).foldl (fun acc c => acc + c.2) 0) /
                ((cachedScored e chunks th maxChunks).length : ℚ) }) := by
  exact ⟨retrieveCachedBelowThreshold task docContent docUrl docId chunks env maxChunks th e
      href hne hemb,
    retrieveCachedSelected task docContent docUrl docId chunks env maxChunks th e
      href hne hemb⟩

/-- A concrete stored chunk for the C7 scenario. -/
def c7Chunk (i : ℕ) (t : String) (emb : List ℚ) : StoredChunk :=
  { docId := "d", url := "u", urlHash := "h", version := "v",
    chunkIndex := i, text := t, embedding := emb, tokenCount := 1 }

/-- Six stored chunks: the first five score −1 against the task embedding
`[1, 0]`, the last scores 0 — all below the 0.4 threshold, with the best one
stored last. -/
def c7Chunks : List StoredChunk :=
  [c7Chunk 0 "A" [-1, 0], c7Chunk 1 "B" [-1, 0], c7Chunk 2 "C" [-1, 0],
   c7Chunk 3 "D" [-1, 0], c7Chunk 4 "E" [-1, 0], c7Chunk 5 "F" [0, 1]]

def c7Env : RetrieveEnv :=
  { taskEmbedCached := .returned [1, 0], taskEmbedMem := .thrown "unused",
    chunkEmbed := fun _ => .thrown "unused" }

theorem c7_cos_low : cosineSimilarity [1, 0] [-1, 0] = -1 := by
  simp only [cosineSimilarity, List.zip, List.zipWith, List.foldl]
  norm_num

theorem c7_cos_mid : cosineSimilarity [1, 0] [0, 1] = 0 := by
  simp only [cosineSimilarity, List.zip, List.zipWith, List.foldl]
  norm_num

/-- Modelled from the spec: the claimed fallback selection — "the top-K
chunks ranked by raw cosine similarity" — for comparison against the code's
actual fallback. -/
def cachedFallbackSpec (taskEmbedding : List ℚ) (cachedChunks : List StoredChunk)
    (maxChunks : ℕ) : List String :=
  (((sortByScoreDesc (cachedChunks.map
        (fun c => (c.text, cosineSimilarity taskEmbedding c.embedding)))).take
      maxChunks).map (·.1))

/-- C7 (counterexample): with six stored chunks all below the threshold and
the highest-scoring one stored last, the code's fallback returns the *first
five* chunks in storage order ("A".."E"), while the claimed top-K-by-raw-
similarity fallback would select "F" first — the code's fallback context is
not the claimed one. -/
theorem C7_rag_fallback_cex :
    retrieveRelevantDocs "t" "doc" (some "u") none c7Chunks c7Env 5 (4/10) =
        { context := "A\n\n---\n\nB\n\n---\n\nC\n\n---\n\nD\n\n---\n\nE",
          similarity := 1/2 } ∧
      cachedFallbackSpec [1, 0] c7Chunks 5 = ["F", "A", "B", "C", "D"] ∧
      "A\n\n---\n\nB\n\n---\n\nC\n\n---\n\nD\n\n---\n\nE" ≠
        String.intercalate "\n\n---\n\n" (cachedFallbackSpec [1, 0] c7Chunks 5) := by
  have hspec : cachedFallbackSpec [1, 0] c7Chunks 5 = ["F", "A", "B", "C", "D"] := by
    simp only [cachedFallbackSpec, c7Chunks, c7Chunk, List.map]
    rw [c7_cos_low, c7_cos_mid]
    norm_num [sortByScoreDesc, List.foldl, insertDesc, List.take, List.map]
  refine ⟨?_, hspec, ?_⟩
  · have h := retrieveCachedBelowThreshold "t" "doc" (some "u") none c7Chunks c7Env 5 (4/10)
      [1, 0] (by decide) (by simp [c7Chunks]) rfl ?_
    · rw [h]
      congr 1
    · intro c hc
      simp only [c7Chunks, c7Chunk, List.mem_cons, List.not_mem_nil, or_false] at hc
      rcases hc with rfl | rfl | rfl | rfl | rfl | rfl <;> intro _
      · rw [c7_cos_low]; norm_num
      · rw [c7_cos_low]; norm_num
      · rw [c7_cos_low]; norm_num
      · rw [c7_cos_low]; norm_num
      · rw [c7_cos_low]; norm_num
      · rw [c7_cos_mid]; norm_num
  · rw [hspec]
    decide

/-- C7 witness: the two helper hypotheses discharged at the concrete C7
scenario — the below-threshold fallback instance of the amended theorem. -/
theorem C7_rag_fallback_witness :
    retrieveRelevantDocs "t" "doc" (some "u") none c7Chunks c7Env 5 (4/10) =
      { context :=
          String.intercalate "\n\n---\n\n" ((c7Chunks.take 5).map (·.text))
        similarity := 1/2 } := by
  refine (C7_rag_fallback "t" "doc" (some "u") none c7Chunks c7Env 5 (4/10) [1, 0]
      (by decide) (by simp [c7Chunks]) rfl).1 ?_
  intro c hc
  simp only [c7Chunks, c7Chunk, List.mem_cons, List.not_mem_nil, or_false] at hc
  rcases hc with rfl | rfl | rfl | rfl | rfl | rfl <;> intro _
  · rw [c7_cos_low]; norm_num
  · rw [c7_cos_low]; norm_num
  · rw [c7_cos_low]; norm_num
  · rw [c7_cos_low]; norm_num
  · rw [c7_cos_low]; norm_num
  · rw [c7_cos_mid]; norm_num

/-! ## Document ingestion service -/

/-- `hashUrl`: sha256 of `url.toLowerCase().trim()`, modeled by the
normalized URL itself (a collision-free stand-in — the code only relies on
equal URLs giving equal keys). -/
def hashUrl (url : String) : String := jsTrimS (jsLower url)

/-- `estimateTokens`: `Math.ceil(text.length / 4)`. -/
def estimateTokens (s : String) : ℕ := (s.length + 3) / 4

/-- `para.split(/(?<=[.!?])\s+/)`: split on whitespace runs that directly
follow a sentence-ending punctuation mark (the punctuation stays with the
left part, the whitespace run is dropped). -/
def sentSplitStep (st : List String × List Char × Bool) (c : Char) :
    List String × List Char × Bool :=
  let isPunct := fun (x : Option Char) => x == some '.' || x == some '!' || x == some '?'
  if st.2.2 then
    if isJsWs c then st
    else (st.1, [c], false)
  else
    if isJsWs c && isPunct st.2.1.head? then
      (st.1 ++ [String.mk st.2.1.reverse], [], true)
    else (st.1, c :: st.2.1, false)

def splitSentences (text : String) : List String :=
  let fin := text.data.foldl sentSplitStep ([], [], false)
  if fin.2.2 then fin.1 ++ [""]
  else fin.1 ++ [String.mk fin.2.1.reverse]

/-- The running state of `chunkContent`'s paragraph loop. -/
structure ChunkState where
  chunks : List String
  current : String
deriving DecidableEq, Repr

/-- One iteration of the sentence accumulation used for a single oversized
paragraph in `chunkContent`. -/
def sentStep (maxTokens : ℕ) (p : List String × String) (sentence : String) :
    List String × String :=
  let sentCombined := if p.2 = "" then sentence else p.2 ++ " " ++ sentence
  if maxTokens < estimateTokens sentCombined ∧ p.2 ≠ "" then
    (p.1 ++ [jsTrimS p.2], sentence)
  else (p.1, sentCombined)

/-- One iteration of `chunkContent`'s paragraph loop: push the accumulated
chunk when the combination would overflow; sentence-split a single oversized
paragraph; otherwise keep accumulating. -/
def chunkStep (maxTokens : ℕ) (st : ChunkState) (para : String) : ChunkState :=
  let combined := if st.current = "" then para else st.current ++ "\n\n" ++ para
  let tokens := estimateTokens combined
  if maxTokens < tokens ∧ st.current ≠ "" then
    { chunks := st.chunks ++ [jsTrimS st.current], current := para }
  else if maxTokens < tokens then
    let fin := (splitSentences para).foldl (sentStep maxTokens) (st.chunks, "")
    { chunks := fin.1, current := if jsTrimS fin.2 ≠ "" then fin.2 else st.current }
  else { chunks := st.chunks, current := combined }

/-- `chunkContent(text, minTokens, maxTokens)`.  The final-chunk test
`estimateTokens(current) >= minTokens / 2` is written multiplied out
(`minTokens ≤ 2 * estimateTokens current`), which is exact. -/
def chunkContent (text : String) (minTokens maxTokens : ℕ) : List String :=
  let fin := (splitParagraphs text).foldl (chunkStep maxTokens) ⟨[], ""⟩
  let cur := jsTrimS fin.current
  if cur ≠ "" ∧ minTokens ≤ 2 * estimateTokens fin.current then fin.chunks ++ [cur]
  else if cur ≠ "" ∧ fin.chunks ≠ [] then
    fin.chunks.dropLast ++ [fin.chunks.getLast! ++ "\n\n" ++ cur]
  else if cur ≠ "" then fin.chunks ++ [cur]
  else fin.chunks

/-- Parse `\d+\.\d+(?:\.\d+)?` at the head of the list; returns the captured
characters and the remainder (greedy on the optional third component). -/
def parseVersionCore (l : List Char) : Option (List Char × List Char) :=
  let s1 := l.span Char.isDigit
  if s1.1 = [] then none
  else
    match s1.2 with
    | '.' :: r2 =>
      let s2 := r2.span Char.isDigit
      if s2.1 = [] then none
      else
        match s2.2 with
        | '.' :: r4 =>
          let s3 := r4.span Char.isDigit
          if s3.1 = [] then some (s1.1 ++ '.' :: s2.1, s2.2)
          else some (s1.1 ++ '.' :: s2.1 ++ '.' :: s3.1, s3.2)
        | _ => some (s1.1 ++ '.' :: s2.1, s2.2)
    | _ => none

/-- Leftmost match of a match-at-position parser. -/
def firstMatch {α : Type} (f : List Char → Option α) : List Char → Option α
  | [] => f []
  | c :: rest =>
    match f (c :: rest) with
    | some v => some v
    | none => firstMatch f rest

/-- Match `/\/v?(\d+\.\d+(?:\.\d+)?)\//` at this position. -/
def matchVerSlash (l : List Char) : Option String :=
  match l with
  | '/' :: r0 =>
    let r1 := if r0.head? == some 'v' then r0.tail else r0
    match parseVersionCore r1 with
    | some (cap, rest) => if rest.head? == some '/' then some (String.mk cap) else none
    | none => none
  | _ => none

/-- Match `/[@\-]v?(\d+\.\d+(?:\.\d+)?)/` at this position. -/
def matchVerAt (l : List Char) : Option String :=
  match l with
  | c :: r0 =>
    if c = '@' ∨ c = '-' then
      let r1 := if r0.head? == some 'v' then r0.tail else r0
      match parseVersionCore r1 with
      | some (cap, _) => some (String.mk cap)
      | none => none
    else none
  | _ => none

/-- Match `/(?:version|v)\s*[:\s]?\s*(\d+\.\d+(?:\.\d+)?)/i` at this
position (lowercased input; an optional colon may sit inside the whitespace
run). -/
def matchVerWord (l : List Char) : Option String :=
  let tryAfter := fun (r0 : List Char) =>
    let r1 := r0.dropWhile isJsWs
    let r2 := if r1.head? == some ':' then (r1.tail.dropWhile isJsWs) else r1
    match parseVersionCore r2 with
    | some (cap, _) => some (String.mk cap)
    | none => none
  if "version".data.isPrefixOf l then tryAfter (l.drop 7)
  else
    match l with
    | 'v' :: r0 => tryAfter r0
    | _ => none

/-- `detectVersion(url, content)`: URL path pattern, then URL suffix pattern,
then a version token in the body, else `"latest"`. -/
def detectVersion (url content : String) : String :=
  match firstMatch matchVerSlash url.data with
  | some v => v
  | none =>
    match firstMatch matchVerAt url.data with
    | some v => v
    | none =>
      match firstMatch matchVerWord (jsLower content).data with
      | some v => v
      | none => "latest"

structure IngestionResult where
  docId : String
  url : String
  urlHash : String
  version : String
  chunkCount : ℕ
  cached : Bool
deriving DecidableEq, Repr

/-- The effect outcomes one `ingestDocument` run can consume: the extracted
document text (or the wrapped fetch failure) from `fetchContent`, the
per-chunk embedding outcomes, and the generated `crypto.randomUUID()`. -/
structure IngestEnv where
  fetchResult : CallOutcome String
  embedResult : ℕ → CallOutcome (List ℚ)
  newDocId : String

/-- How much fetching/embedding work a run performed. -/
structure IngestTrace where
  fetches : ℕ
  embedCalls : ℕ
deriving DecidableEq, Repr

/-- `DocChunk.countDocuments({ urlHash })` over the modeled store. -/
def countChunks (store : List StoredChunk) (h : String) : ℕ :=
  (store.filter (fun c => c.urlHash = h)).length

/-- `ingestDocument(url, options)`: return the cached identity when chunks
already exist for the URL hash and no refresh is forced; on a forced refresh
delete the existing chunks first; otherwise fetch, require at least 50
trimmed characters, detect a version, chunk, and store one `DocChunk` per
chunk (an embedding failure stores the chunk with an empty embedding). -/
def ingestDocument (url : String) (forceRefresh : Bool) (env : IngestEnv)
    (store : List StoredChunk) :
    Except String (IngestionResult × List StoredChunk × IngestTrace) :=
  let urlHash := hashUrl url
  if ¬forceRefresh ∧ 0 < countChunks store urlHash then
    let first := (store.filter (fun c => c.urlHash = urlHash)).head?
    .ok
      ({ docId :=
            match first with
            | some c => if c.docId = "" then urlHash else c.docId
            | none => urlHash
         url := url
         urlHash := urlHash
         version :=
            match first with
            | some c => if c.version = "" then "unknown" else c.version
            | none => "unknown"
         chunkCount := countChunks store urlHash
         cached := true }, store, ⟨0, 0⟩)
  else
    let store1 := if forceRefresh then store.filter (fun c => c.urlHash ≠ urlHash) else store
    match env.fetchResult with
    | .thrown m => .error m
    | .returned rawContent =>
      if rawContent = "" ∨ (jsTrimS rawContent).length < 50 then
        .error "Failed to extract meaningful content from URL"
      else
        let version := detectVersion url rawContent
        let docId := env.newDocId
        let chunks := chunkContent rawContent 800 1200
        let newChunks : List StoredChunk := chunks.enum.map (fun p =>
          { docId := docId, url := url, urlHash := urlHash, version := version,
            chunkIndex := p.1, text := p.2,
            embedding :=
              match env.embedResult p.1 with
              | .returned e => e
              | .thrown _ => []
            tokenCount := estimateTokens p.2 })
        .ok
          ({ docId := docId, url := url, urlHash := urlHash, version := version,
             chunkCount := chunks.length, cached := false },
           store1 ++ newChunks, ⟨1, chunks.length⟩)

/-! ### Claim C9 — chunk-nonemptiness infrastructure -/

/-- Does the character list contain a non-whitespace character? -/
def anyNonWsL (l : List Char) : Bool := l.any (fun c => !isJsWs c)

/-- Does the string contain a non-whitespace character? -/
def hasNonWs (s : String) : Bool := anyNonWsL s.data

theorem jsTrimL_eq_nil_iff (l : List Char) :
    jsTrimL l = [] ↔ ∀ c ∈ l, isJsWs c = true := by
  unfold jsTrimL
  rw [List.reverse_eq_nil_iff, List.dropWhile_eq_nil_iff]
  constructor
  · intro h c hc
    have hsplit := List.takeWhile_append_dropWhile (p := isJsWs) (l := l)
    rcases List.mem_append.mp (hsplit ▸ hc) with h1 | h2
    · exact List.mem_takeWhile_imp h1
    · exact h c (List.mem_reverse.mpr h2)
  · intro h c hc
    exact h c ((List.dropWhile_sublist _).subset (List.mem_reverse.mp hc))

theorem hasNonWs_iff_trim_ne (s : String) : hasNonWs s = true ↔ jsTrimS s ≠ "" := by
  constructor
  · intro h heq
    have hnil : jsTrimL s.data = [] := by
      have := congrArg String.data heq
      simpa [jsTrimS] using this
    rcases List.any_eq_true.mp h with ⟨c, hc, hcw⟩
    have := (jsTrimL_eq_nil_iff s.data).mp hnil c hc
    simp [this] at hcw
  · intro h
    by_contra hno
    apply h
    have hall : ∀ c ∈ s.data, isJsWs c = true := by
      intro c hc
      by_contra hw
      exact hno (List.any_eq_true.mpr ⟨c, hc, by simp [hw]⟩)
    have : jsTrimL s.data = [] := (jsTrimL_eq_nil_iff s.data).mpr hall
    simp [jsTrimS, this]

theorem anyNonWsL_append (a b : List Char) :
    anyNonWsL (a ++ b) = (anyNonWsL a || anyNonWsL b) := by
  simp [anyNonWsL]

theorem anyNonWsL_reverse (a : List Char) : anyNonWsL a.reverse = anyNonWsL a := by
  simp [anyNonWsL]

theorem anyNonWsL_cons (c : Char) (l : List Char) :
    anyNonWsL (c :: l) = (!isJsWs c || anyNonWsL l) := by
  simp [anyNonWsL]

theorem anyNonWsL_replicate_newline (n : ℕ) :
    anyNonWsL (List.replicate n '\n') = false := by
  simp [anyNonWsL]
  intro _
  rfl

theorem hasNonWs_append (a b : String) :
    hasNonWs (a ++ b) = (hasNonWs a || hasNonWs b) := by
  simp [hasNonWs, anyNonWsL]

/-- Invariant of the paragraph splitter: some finished part or the current
part carries a non-whitespace character. -/
def ParaGood (st : List (List Char) × List Char × ℕ) : Prop :=
  st.1.any anyNonWsL = true ∨ anyNonWsL st.2.1 = true

theorem paraStep_preserves (st : List (List Char) × List Char × ℕ) (c : Char)
    (h : ParaGood st) : ParaGood (paraStep st c) := by
  unfold paraStep ParaGood
  rcases h with hp | hc
  · split
    · exact Or.inl hp
    · split
      · left; simp [List.any_append, hp]
      · exact Or.inl hp
  · split
    · exact Or.inr hc
    · split
      · left
        simp [List.any_append, anyNonWsL_reverse, hc]
      · right
        rw [anyNonWsL_cons, anyNonWsL_append, hc]
        simp

theorem paraStep_establishes (st : List (List Char) × List Char × ℕ) (c : Char)
    (h : isJsWs c = false) : ParaGood (paraStep st c) := by
  unfold paraStep ParaGood
  split
  · rename_i hcn
    rw [hcn] at h
    exact absurd h (by simp [isJsWs])
  · split
    · right; simp [anyNonWsL, h]
    · right; simp [anyNonWsL, h]

theorem paraFold_good (l : List Char) :
    ∀ st, (ParaGood st ∨ ∃ c ∈ l, isJsWs c = false) → ParaGood (l.foldl paraStep st) := by
  induction l with
  | nil =>
    intro st h
    rcases h with h | ⟨c, hc, _⟩
    · exact h
    · exact absurd hc (List.not_mem_nil c)
  | cons c rest ih =>
    intro st h
    rw [List.foldl_cons]
    apply ih
    rcases h with hg | ⟨c', hc', hw⟩
    · exact Or.inl (paraStep_preserves st c hg)
    · rcases List.mem_cons.mp hc' with rfl | hmem
      · exact Or.inl (paraStep_establishes st c' hw)
      · exact Or.inr ⟨c', hmem, hw⟩

theorem splitParagraphs_exists_nonWs (text : String) (h : hasNonWs text = true) :
    ∃ p ∈ splitParagraphs text, hasNonWs p = true := by
  have hex : ∃ c ∈ text.data, isJsWs c = false := by
    rcases List.any_eq_true.mp h with ⟨c, hc, hcw⟩
    exact ⟨c, hc, by revert hcw; cases isJsWs c <;> simp⟩
  have hgood := paraFold_good text.data ([], [], 0) (Or.inr hex)
  unfold splitParagraphs
  dsimp only
  set fin := text.data.foldl paraStep ([], [], 0) with hfin
  rcases hgood with hp | hc
  · rcases List.any_eq_true.mp hp with ⟨lp, hlp, hlpw⟩
    refine ⟨String.mk lp, ?_, hlpw⟩
    split
    · exact List.mem_map.mpr ⟨lp, List.mem_append.mpr (Or.inl hlp), rfl⟩
    · exact List.mem_map.mpr ⟨lp, List.mem_append.mpr (Or.inl hlp), rfl⟩
  · split
    · refine ⟨String.mk fin.2.1.reverse, ?_, ?_⟩
      · exact List.mem_map.mpr ⟨fin.2.1.reverse,
          List.mem_append.mpr (Or.inr (by simp)), rfl⟩
      · show anyNonWsL fin.2.1.reverse = true
        rw [anyNonWsL_reverse]
        exact hc
    · refine ⟨String.mk (List.replicate fin.2.2 '\n' ++ fin.2.1).reverse, ?_, ?_⟩
      · exact List.mem_map.mpr ⟨(List.replicate fin.2.2 '\n' ++ fin.2.1).reverse,
          List.mem_append.mpr (Or.inr (by simp)), rfl⟩
      · show anyNonWsL (List.replicate fin.2.2 '\n' ++ fin.2.1).reverse = true
        rw [anyNonWsL_reverse, anyNonWsL_append, anyNonWsL_replicate_newline]
        simpa using hc

theorem hasNonWs_ne_empty {s : String} (h : hasNonWs s = true) : s ≠ "" := by
  intro heq
  rw [heq] at h
  exact absurd h (by decide)

/-- Invariant of the sentence splitter: some finished part carries a
non-whitespace character, or the current part does and we are not inside a
separator run. -/
def SentGood (st : List String × List Char × Bool) : Prop :=
  st.1.any hasNonWs = true ∨ (anyNonWsL st.2.1 = true ∧ st.2.2 = false)

theorem sentSplitStep_preserves (st : List String × List Char × Bool) (c : Char)
    (h : SentGood st) : SentGood (sentSplitStep st c) := by
  unfold sentSplitStep SentGood
  dsimp only
  rcases h with hp | ⟨hc, hsep⟩
  · split
    · split
      · exact Or.inl hp
      · exact Or.inl hp
    · split
      · left; simp [List.any_append, hp]
      · exact Or.inl hp
  · rw [hsep]
    simp only [if_false, Bool.false_eq_true]
    split
    · left
      simp [List.any_append, hasNonWs, anyNonWsL_reverse, hc]
    · right
      exact ⟨by rw [anyNonWsL_cons, hc]; simp, rfl⟩

theorem sentSplitStep_establishes (st : List String × List Char × Bool) (c : Char)
    (h : isJsWs c = false) : SentGood (sentSplitStep st c) := by
  unfold sentSplitStep SentGood
  dsimp only
  split
  · split
    · rename_i hws
      rw [h] at hws
      exact absurd hws (by simp)
    · right; exact ⟨by simp [anyNonWsL, h], rfl⟩
  · split
    · rename_i hcond
      rw [h] at hcond
      exact absurd hcond (by simp)
    · right
      exact ⟨by rw [anyNonWsL_cons, h]; simp, rfl⟩

theorem sentSplitFold_good (l : List Char) :
    ∀ st, (SentGood st ∨ ∃ c ∈ l, isJsWs c = false) →
      SentGood (l.foldl sentSplitStep st) := by
  induction l with
  | nil =>
    intro st h
    rcases h with h | ⟨c, hc, _⟩
    · exact h
    · exact absurd hc (List.not_mem_nil c)
  | cons c rest ih =>
    intro st h
    rw [List.foldl_cons]
    apply ih
    rcases h with hg | ⟨c', hc', hw⟩
    · exact Or.inl (sentSplitStep_preserves st c hg)
    · rcases List.mem_cons.mp hc' with rfl | hmem
      · exact Or.inl (sentSplitStep_establishes st c' hw)
      · exact Or.inr ⟨c', hmem, hw⟩

theorem splitSentences_exists_nonWs (para : String) (h : hasNonWs para = true) :
    ∃ s ∈ splitSentences para, hasNonWs s = true := by
  have hex : ∃ c ∈ para.data, isJsWs c = false := by
    rcases List.any_eq_true.mp h with ⟨c, hc, hcw⟩
    exact ⟨c, hc, by revert hcw; cases isJsWs c <;> simp⟩
  have hgood := sentSplitFold_good para.data ([], [], false) (Or.inr hex)
  unfold splitSentences
  dsimp only
  set fin := para.data.foldl sentSplitStep ([], [], false) with hfin
  rcases hgood with hp | ⟨hc, hsep⟩
  · rcases List.any_eq_true.mp hp with ⟨s, hs, hsw⟩
    refine ⟨s, ?_, hsw⟩
    split
    · exact List.mem_append.mpr (Or.inl hs)
    · exact List.mem_append.mpr (Or.inl hs)
  · rw [hsep]
    simp only [Bool.false_eq_true, if_false]
    refine ⟨String.mk fin.2.1.reverse, List.mem_append.mpr (Or.inr (by simp)), ?_⟩
    show anyNonWsL fin.2.1.reverse = true
    rw [anyNonWsL_reverse]
    exact hc

/-- Invariant of the sentence-accumulation fold in `chunkStep`. -/
def SFGood (p : List String × String) : Prop :=
  p.1 ≠ [] ∨ hasNonWs p.2 = true

theorem sentStep_preserves (maxT : ℕ) (p : List String × String) (sentence : String)
    (h : SFGood p) : SFGood (sentStep maxT p sentence) := by
  unfold sentStep SFGood
  dsimp only
  by_cases hbig :
      maxT < estimateTokens (if p.2 = "" then sentence else p.2 ++ " " ++ sentence) ∧ p.2 ≠ ""
  · rw [if_pos hbig]
    left; simp
  · rw [if_neg hbig]
    rcases h with hp | hc
    · exact Or.inl hp
    · right
      by_cases hemp : p.2 = ""
      · rw [hemp] at hc
        exact absurd hc (by decide)
      · rw [if_neg hemp, hasNonWs_append, hasNonWs_append, hc]
        simp

theorem sentStep_establishes (maxT : ℕ) (p : List String × String) (sentence : String)
    (h : hasNonWs sentence = true) : SFGood (sentStep maxT p sentence) := by
  unfold sentStep SFGood
  dsimp only
  by_cases hbig :
      maxT < estimateTokens (if p.2 = "" then sentence else p.2 ++ " " ++ sentence) ∧ p.2 ≠ ""
  · rw [if_pos hbig]
    left; simp
  · rw [if_neg hbig]
    right
    by_cases hemp : p.2 = ""
    · rw [if_pos hemp]
      exact h
    · rw [if_neg hemp, hasNonWs_append, hasNonWs_append, h]
      simp

theorem sentFold_good (maxT : ℕ) (sentences : List String) :
    ∀ p, (SFGood p ∨ ∃ s ∈ sentences, hasNonWs s = true) →
      SFGood (sentences.foldl (sentStep maxT) p) := by
  induction sentences with
  | nil =>
    intro p h
    rcases h with h | ⟨s, hs, _⟩
    · exact h
    · exact absurd hs (List.not_mem_nil s)
  | cons s rest ih =>
    intro p h
    rw [List.foldl_cons]
    apply ih
    rcases h with hg | ⟨s', hs', hw⟩
    · exact Or.inl (sentStep_preserves maxT p s hg)
    · rcases List.mem_cons.mp hs' with rfl | hmem
      · exact Or.inl (sentStep_establishes maxT p s' hw)
      · exact Or.inr ⟨s', hmem, hw⟩

/-- Invariant of the paragraph loop of `chunkContent`. -/
def CGood (st : ChunkState) : Prop :=
  st.chunks ≠ [] ∨ hasNonWs st.current = true

theorem chunkStep_good (maxT : ℕ) (st : ChunkState) (para : String)
    (h : CGood st ∨ hasNonWs para = true) : CGood (chunkStep maxT st para) := by
  unfold chunkStep CGood
  dsimp only
  by_cases hb1 :
      maxT < estimateTokens (if st.current = "" then para else st.current ++ "\n\n" ++ para) ∧
        st.current ≠ ""
  · rw [if_pos hb1]
    left; simp
  · rw [if_neg hb1]
    by_cases hb2 :
        maxT < estimateTokens (if st.current = "" then para else st.current ++ "\n\n" ++ para)
    · rw [if_pos hb2]
      have hcur : st.current = "" := by
        by_contra hne
        exact hb1 ⟨hb2, hne⟩
      have hfin : SFGood ((splitSentences para).foldl (sentStep maxT) (st.chunks, "")) := by
        apply sentFold_good
        rcases h with hg | hpara
        · rcases hg with hch | hcu
          · exact Or.inl (Or.inl hch)
          · rw [hcur] at hcu
            exact absurd hcu (by decide)
        · exact Or.inr (splitSentences_exists_nonWs para hpara)
      rcases hfin with hch | hcu
      · exact Or.inl hch
      · right
        have htr := (hasNonWs_iff_trim_ne _).mp hcu
        split
        · first
          | exact hcu
          | (rename_i hcond; exact absurd htr (by simpa using hcond))
        · first
          | exact hcu
          | (rename_i hcond; exact absurd htr (by simpa using hcond))
    · rw [if_neg hb2]
      rcases h with hg | hpara
      · rcases hg with hch | hcu
        · exact Or.inl hch
        · right
          by_cases hemp : st.current = ""
          · rw [hemp] at hcu
            exact absurd hcu (by decide)
          · rw [if_neg hemp, hasNonWs_append, hasNonWs_append, hcu]
            simp
      · right
        by_cases hemp : st.current = ""
        · rw [if_pos hemp]
          exact hpara
        · rw [if_neg hemp, hasNonWs_append, hasNonWs_append, hpara]
          simp

theorem chunkFold_good (maxT : ℕ) (paras : List String) :
    ∀ st, (CGood st ∨ ∃ p ∈ paras, hasNonWs p = true) →
      CGood (paras.foldl (chunkStep maxT) st) := by
  induction paras with
  | nil =>
    intro st h
    rcases h with h | ⟨p, hp, _⟩
    · exact h
    · exact absurd hp (List.not_mem_nil p)
  | cons p rest ih =>
    intro st h
    rw [List.foldl_cons]
    apply ih
    rcases h with hg | ⟨p', hp', hw⟩
    · exact Or.inl (chunkStep_good maxT st p (Or.inl hg))
    · rcases List.mem_cons.mp hp' with rfl | hmem
      · exact Or.inl (chunkStep_good maxT st p' (Or.inr hw))
      · exact Or.inr ⟨p', hmem, hw⟩

/-- A text with any non-whitespace character chunks into at least one
chunk. -/
theorem chunkContent_ne_nil (text : String) (minT maxT : ℕ)
    (h : hasNonWs text = true) : chunkContent text minT maxT ≠ [] := by
  unfold chunkContent
  dsimp only
  have hgood : CGood ((splitParagraphs text).foldl (chunkStep maxT) ⟨[], ""⟩) :=
    chunkFold_good maxT (splitParagraphs text) ⟨[], ""⟩
      (Or.inr (splitParagraphs_exists_nonWs text h))
  rcases hgood with hch | hcu
  · split
    · simp
    · split
      · simp
      · split
        · simp
        · exact hch
  · have hcur : jsTrimS ((splitParagraphs text).foldl (chunkStep maxT) ⟨[], ""⟩).current ≠ "" :=
      (hasNonWs_iff_trim_ne _).mp hcu
    split
    · simp
    · split
      · simp
      · simp [hcur]

/-- A successful non-refresh ingestion leaves at least one stored chunk for
the URL's hash. -/
theorem ingest_ok_count_pos (url : String) (env : IngestEnv)
    (σ0 σ1 : List StoredChunk) (r1 : IngestionResult) (t1 : IngestTrace)
    (h : ingestDocument url false env σ0 = .ok (r1, σ1, t1)) :
    0 < countChunks σ1 (hashUrl url) := by
  unfold ingestDocument at h
  dsimp only at h
  split at h
  · rename_i hguard
    have hσ : σ1 = σ0 := by
      injection h with h'
      injection h' with _ h''
      exact (congrArg Prod.fst h'').symm
    rw [hσ]
    exact hguard.2
  · rename_i hguard
    cases henv : env.fetchResult with
    | thrown m =>
      rw [henv] at h
      exact absurd h (by simp)
    | returned rawContent =>
      rw [henv] at h
      dsimp only at h
      split at h
      · exact absurd h (by simp)
      · rename_i hcontent
        have hnw : hasNonWs rawContent = true := by
          apply (hasNonWs_iff_trim_ne rawContent).mpr
          intro htrim
          apply hcontent
          right
          rw [htrim]
          simp
        have hchunks := chunkContent_ne_nil rawContent 800 1200 hnw
        have hσ : σ1 =
            σ0 ++ (chunkContent rawContent 800 1200).enum.map (fun p =>
              ({ docId := env.newDocId, url := url, urlHash := hashUrl url,
                 version := detectVersion url rawContent,
                 chunkIndex := p.1, text := p.2,
                 embedding :=
                   match env.embedResult p.1 with
                   | .returned e => e
                   | .thrown _ => []
                 tokenCount := estimateTokens p.2 } : StoredChunk)) := by
          injection h with h'
          injection h' with _ h''
          exact (congrArg Prod.fst h'').symm
        rw [hσ]
        unfold countChunks
        rw [List.filter_append, List.length_append]
        have hfil :
            ((chunkContent rawContent 800 1200).enum.map (fun p =>
              ({ docId := env.newDocId, url := url, urlHash := hashUrl url,
                 version := detectVersion url rawContent,
                 chunkIndex := p.1, text := p.2,
                 embedding :=
                   match env.embedResult p.1 with
                   | .returned e => e
                   | .thrown _ => []
                 tokenCount := estimateTokens p.2 } : StoredChunk))).filter
              (fun c => c.urlHash = hashUrl url) =
            (chunkContent rawContent 800 1200).enum.map (fun p =>
              ({ docId := env.newDocId, url := url, urlHash := hashUrl url,
                 version := detectVersion url rawContent,
                 chunkIndex := p.1, text := p.2,
                 embedding :=
                   match env.embedResult p.1 with
                   | .returned e => e
                   | .thrown _ => []
                 tokenCount := estimateTokens p.2 } : StoredChunk)) := by
          apply List.filter_eq_self.mpr
          intro c hc
          rcases List.mem_map.mp hc with ⟨p, _, rfl⟩
          simp
        rw [hfil, List.length_map, List.enum_length]
        have : (chunkContent rawContent 800 1200).length ≠ 0 := by
          intro hz
          exact hchunks (List.length_eq_zero.mp hz)
        omega

/-- C9: after a successful `ingestDocument(url)` with `forceRefresh=false`, a
second `ingestDocument(url, forceRefresh=false)` — with any fetch/embedding
environment — returns `cached=true`, performs zero fetches and zero embedding
calls, leaves the store (hence the chunk count for the URL's hash) unchanged,
and reports the stored chunk count. -/
theorem C9_ingest_idempotent (url : String) (env1 env2 : IngestEnv)
    (σ0 σ1 : List StoredChunk) (r1 : IngestionResult) (t1 : IngestTrace)
    (h1 : ingestDocument url false env1 σ0 = .ok (r1, σ1, t1)) :
    ∃ r2, ingestDocument url false env2 σ1 = .ok (r2, σ1, ⟨0, 0⟩) ∧
      r2.cached = true ∧ r2.chunkCount = countChunks σ1 (hashUrl url) := by
  have hcount := ingest_ok_count_pos url env1 σ0 σ1 r1 t1 h1
  unfold ingestDocument
  dsimp only
  rw [if_pos ⟨by simp, hcount⟩]
  exact ⟨_, rfl, rfl, rfl⟩

/-- 50 characters of content for the C9 witness run. -/
def c9Text : String := "aaaaaaaaaaaaaaaaaaaaaaaaaaaaaaaaaaaaaaaaaaaaaaaaaa"

def c9Env1 : IngestEnv :=
  { fetchResult := .returned c9Text, embedResult := fun _ => .returned [1],
    newDocId := "id1" }

/-- The second environment throws everywhere: the cached return never
touches it. -/
def c9Env2 : IngestEnv :=
  { fetchResult := .thrown "down", embedResult := fun _ => .thrown "down",
    newDocId := "id2" }

def c9Stored : List StoredChunk :=
  [{ docId := "id1", url := "u", urlHash := "u", version := "latest",
     chunkIndex := 0, text := c9Text, embedding := [1], tokenCount := 13 }]

set_option maxRecDepth 40000 in
/-- C9 witness: a concrete first ingestion of 50 characters stores one
chunk; the second call returns `cached=true` with zero fetches/embeddings
against an environment that would throw if touched. -/
theorem C9_ingest_idempotent_witness :
    ∃ r2, ingestDocument "u" false c9Env2 c9Stored = .ok (r2, c9Stored, ⟨0, 0⟩) ∧
      r2.cached = true ∧ r2.chunkCount = countChunks c9Stored (hashUrl "u") :=
  C9_ingest_idempotent "u" c9Env1 c9Env2 [] c9Stored
    { docId := "id1", url := "u", urlHash := "u", version := "latest",
      chunkCount := 1, cached := false }
    ⟨1, 1⟩ (by rfl)

/-! ## `enhancementService`, `securityService`, `fixCode` -/

structure EnhancedTask where
  title : String
  description : String
  keyRequirements : List String
  suggestedApproach : String
deriving DecidableEq, Repr

/-- The `JSON.parse`d enhancement reply: either a bare array or an object
with optional `variations`/`tasks` fields (in JS, a present array — even an
empty one — is truthy for `||`). -/
inductive EnhanceParsed where
  | arr (tasks : List EnhancedTask)
  | obj (variations : Option (List EnhancedTask)) (tasks : Option (List EnhancedTask))
deriving DecidableEq, Repr

/-- `enhanceTask`: the model call sits outside the `try`, so a thrown call
propagates unwra­pped; a parse failure or an empty task list throws a wrapped
`Enhancement parsing failed` error; otherwise at most 3 tasks are kept. -/
def enhanceTask (taskDescription language : String) (o : JsonOutcome EnhanceParsed) :
    Except String (List EnhancedTask) :=
  match o with
  | .thrown m => .error m
  | .parseFail m => .error ("Enhancement parsing failed: " ++ m)
  | .parsed p =>
      let tasks :=
        match p with
        | .arr l => l
        | .obj variations tasks => ((variations).orElse (fun _ => tasks)).getD []
      if tasks.isEmpty then
        .error ("Enhancement parsing failed: " ++ "No enhanced tasks returned")
      else .ok (tasks.take 3)

structure SecurityFinding where
  severity : String
  category : String
  description : String
  line : Option String
  recommendation : String
deriving DecidableEq, Repr

structure SecurityAuditResult where
  overallRisk : String
  findings : List SecurityFinding
  performanceNotes : List String
  score : ℚ
deriving DecidableEq, Repr

/-- The `JSON.parse`d audit reply before defensive normalization. -/
structure AuditParsed where
  overallRisk : Option String
  findings : Option (List SecurityFinding)
  performanceNotes : Option (List String)
  score : Option ℚ
deriving DecidableEq, Repr

/-- `auditCode`: normalizes a parsed reply (score clamped into [0,100] or 75,
lists defaulted to empty, risk defaulted to `"low"`); any thrown call or
parse failure degrades to the fixed medium-risk result. -/
def auditCode (code language : String) (o : JsonOutcome AuditParsed) : SecurityAuditResult :=
  match o with
  | .thrown _ =>
      { overallRisk := "medium", findings := [],
        performanceNotes := ["Audit could not be completed"], score := 50 }
  | .parseFail _ =>
      { overallRisk := "medium", findings := [],
        performanceNotes := ["Audit could not be completed"], score := 50 }
  | .parsed p =>
      { overallRisk :=
          match p.overallRisk with
          | some r => if r = "" then "low" else r
          | none => "low"
        findings := p.findings.getD []
        performanceNotes := p.performanceNotes.getD []
        score :=
          match p.score with
          | some s => max 0 (min 100 s)
          | none => 75 }

/-- `fixCode`: one model call (so a thrown call propagates), then the same
fence stripping as generation. -/
def fixCode (code errorLog language : String) (o : CallOutcome String) :
    Except String String :=
  match o with
  | .thrown m => .error m
  | .returned raw => .ok (stripCodeFences raw)

/-! ## Orchestrator — `runPipeline` -/

structure LineMapping where
  startLine : ℕ
  endLine : ℕ
  docChunkId : String
  similarityScore : ℚ
deriving DecidableEq, Repr

/-- One Stage record.  Timestamps are modeled as ticks of a logical clock:
each `new Date()` in `startStage`/`endStage` consumes one tick. -/
structure StageRecord where
  name : String
  status : String
  startedAt : ℕ
  completedAt : Option ℕ
  durationMs : Option ℤ
deriving DecidableEq, Repr

/-- `endStage`: the only constructor of stage records — status `"completed"`
with both timestamps and the duration filled in. -/
def mkStageRecord (name : String) (t0 t1 : ℕ) : StageRecord :=
  { name := name, status := "completed", startedAt := t0, completedAt := some t1,
    durationMs := some ((t1 : ℤ) - (t0 : ℤ)) }

structure GenerateRequest where
  userId : String
  taskDescription : String
  docUrl : String
  docContent : String
  language : String
  selectedTaskIndex : ℕ
deriving DecidableEq, Repr

structure GenerateResponse where
  selectedCode : String
  candidates : List CodeCandidate
  judgeResult : JudgeResult
  validationResult : ValidationResult
  securityAudit : SecurityAuditResult
  confidence : ConfidenceResult
  lineMappings : List LineMapping
  stages : List StageRecord

/-- The effect outcomes one pipeline run can consume (one per model/service
call site; `runtime k` is the runtime-validation outcome of the k-th
`validateCode` call, `fix n` the n-th repair attempt's completion call;
`buildTraceMappings` is oracled at its call boundary — the pipeline wraps it
in its own try/catch anyway). -/
structure PipelineEnv where
  enhance : JsonOutcome EnhanceParsed
  rag : RetrieveEnv
  primaryGen : CallOutcome String
  altGen : CallOutcome String
  judge : JsonOutcome JudgeParsed
  runtime : ℕ → JsonOutcome RuntimeReply
  fix : ℕ → CallOutcome String
  audit : JsonOutcome AuditParsed
  trace : CallOutcome (List LineMapping)

/-- JS array indexing `arr[i]` with a JS-number index: defined only for an
integral in-bounds index. -/
def jsIndexGet {α : Type} (l : List α) (i : ℚ) : Option α :=
  if i.den = 1 ∧ 0 ≤ i.num ∧ i.num < l.length then l.get? i.num.toNat else none

/-- The `for (attempt = 0; attempt < maxFixAttempts; attempt++)` repair
loop: fix with the latest runtime error (JS stringifies a null assertion as
`"null"`), fully re-validate, record the attempt's stage, break on pass.  A
thrown `fixCode` unwinds with the stages collected so far — the started
attempt leaves no record.  Returns the final code, validation, stages,
clock, and the number of attempts performed. -/
def repairLoop (fixO : ℕ → CallOutcome String) (valO : ℕ → JsonOutcome RuntimeReply)
    (language task : String) :
    ℕ → ℕ → String → ValidationResult → List StageRecord → ℕ →
    Except (String × List StageRecord)
      (String × ValidationResult × List StageRecord × ℕ × ℕ)
  | attempt, 0, code, v, stages, time => .ok (code, v, stages, time, attempt)
  | attempt, fuel + 1, code, v, stages, time =>
      match fixCode code
          (match v.runtimeError with
           | some s => s
           | none => "null") language (fixO attempt) with
      | .error m => .error (m, stages)
      | .ok code2 =>
          let v2 := validateCode code2 language task (valO (attempt + 1))
          let stages2 :=
            stages ++ [mkStageRecord ("runtime_fix_" ++ toString (attempt + 1)) time (time + 1)]
          if v2.passed then .ok (code2, v2, stages2, time + 2, attempt + 1)
          else repairLoop fixO valO language task (attempt + 1) fuel code2 v2 stages2 (time + 2)

/-- Stage 5b: the loop runs only when validation failed and the runtime
error is truthy. -/
def runFixPhase (fixO : ℕ → CallOutcome String) (valO : ℕ → JsonOutcome RuntimeReply)
    (language task : String) (maxFixAttempts : ℕ) (code : String) (v : ValidationResult)
    (stages : List StageRecord) (time : ℕ) :
    Except (String × List StageRecord)
      (String × ValidationResult × List StageRecord × ℕ × ℕ) :=
  if v.passed = false ∧ jsTruthyStrOpt v.runtimeError = true then
    repairLoop fixO valO language task 0 maxFixAttempts code v stages time
  else .ok (code, v, stages, time, 0)

/-- `runPipeline(request)`.  A thrown stage unwinds to the catch block,
which saves the stages collected so far (the started stage's record was
never pushed); a successful run returns the full response.  The logical
clock ticks once per `startStage`/`endStage`. -/
def runPipeline (req : GenerateRequest) (env : PipelineEnv) :
    Except (String × List StageRecord) GenerateResponse :=
  -- Stage 1: enhancement (ticks 0, 1)
  match enhanceTask req.taskDescription req.language env.enhance with
  | .error e => .error (e, [])
  | .ok enhancedTasks =>
    match (enhancedTasks.get? req.selectedTaskIndex).orElse (fun _ => enhancedTasks.get? 0) with
    | none => .error ("TypeError: Cannot read properties of undefined (reading 'description')", [])
    | some selectedTask =>
      let enhancedDescription := selectedTask.description
      let stages1 := [mkStageRecord "enhancing_task" 0 1]
      -- Stage 2: retrieval (ticks 2, 3)
      let ragResult :=
        if req.docContent ≠ "" ∧ 0 < (jsTrimS req.docContent).length then
          retrieveRelevantDocs enhancedDescription req.docContent none none [] env.rag
        else
          { context := "Documentation URL: " ++ req.docUrl ++
              "\nPlease implement based on the standard " ++ req.language ++
              " documentation and best practices."
            similarity := 1/2 }
      let stages2 := stages1 ++ [mkStageRecord "retrieving_docs" 2 3]
      -- Stage 3: generation (ticks 4, 5)
      match generateCode enhancedDescription ragResult.context req.language
          env.primaryGen env.altGen 4 with
      | .error e => .error (e, stages2)
      | .ok genResult =>
        let stages3 := stages2 ++ [mkStageRecord "generating_code" 4 5]
        -- Stage 4: judging (ticks 6, 7)
        match judgeCode genResult.candidates enhancedDescription ragResult.context env.judge with
        | .error e => .error (e, stages3)
        | .ok judgeResult =>
          let stages4 := stages3 ++ [mkStageRecord "judging" 6 7]
          -- Stage 5: validation (ticks 8, 9); `candidates[idx]?.code || candidates[0].code`
          match
            (match (jsIndexGet genResult.candidates judgeResult.selectedIndex).map
                (fun c => c.code) with
             | some c =>
                if c = "" then (genResult.candidates.get? 0).map (fun c0 => c0.code)
                else some c
             | none => (genResult.candidates.get? 0).map (fun c0 => c0.code) : Option String) with
          | none => .error ("TypeError: Cannot read properties of undefined (reading 'code')", stages4)
          | some selectedCode0 =>
            let validationResult0 :=
              validateCode selectedCode0 req.language enhancedDescription (env.runtime 0)
            let stages5 := stages4 ++ [mkStageRecord "validating" 8 9]
            -- Stage 5b: bounded repair loop (clock from tick 10)
            match runFixPhase env.fix env.runtime req.language enhancedDescription
                ENGINE_CONFIG.maxFixAttempts selectedCode0 validationResult0 stages5 10 with
            | .error (e, stagesE) => .error (e, stagesE)
            | .ok (selectedCode, validationResult, stages6, t6, _) =>
              -- Stage 6: security audit
              let securityAudit := auditCode selectedCode req.language env.audit
              let stages7 := stages6 ++ [mkStageRecord "security_audit" t6 (t6 + 1)]
              -- Stage 7b: trace mapping, wrapped in try/catch (failure → [])
              let lineMappings :=
                match env.trace with
                | .returned ms => ms
                | .thrown _ => []
              let stages8 := stages7 ++ [mkStageRecord "trace_mapping" (t6 + 2) (t6 + 3)]
              -- Stage 8: scoring; `scores[idx]?.total || 70`
              let judgeTotal : ℚ :=
                match (jsIndexGet judgeResult.scores judgeResult.selectedIndex).map
                    (fun s => s.total) with
                | some t => if t = 0 then (70 : ℚ) else t
                | none => (70 : ℚ)
              let confidence := calculateConfidence judgeTotal validationResult.runtimeScore
                validationResult.staticScore ragResult.similarity
              let stages9 := stages8 ++ [mkStageRecord "scoring" (t6 + 4) (t6 + 5)]
              .ok { selectedCode := selectedCode
                    candidates := genResult.candidates
                    judgeResult := judgeResult
                    validationResult := validationResult
                    securityAudit := securityAudit
                    confidence := confidence
                    lineMappings := lineMappings
                    stages := stages9 }

/-! ### Claim C6 -/

/-- The repair loop performs at most `fuel` further attempts. -/
theorem repairLoop_attempts_le (fixO : ℕ → CallOutcome String)
    (valO : ℕ → JsonOutcome RuntimeReply) (language task : String) :
    ∀ fuel attempt code v stages time out,
      repairLoop fixO valO language task attempt fuel code v stages time = .ok out →
      out.2.2.2.2 ≤ attempt + fuel := by
  intro fuel
  induction fuel with
  | zero =>
    intro attempt code v stages time out h
    rw [repairLoop] at h
    cases h
    simp
  | succ n ih =>
    intro attempt code v stages time out h
    rw [repairLoop] at h
    cases hfix : fixO attempt with
    | thrown m =>
      rw [hfix] at h
      simp [fixCode] at h
    | returned raw =>
      rw [hfix] at h
      simp only [fixCode] at h
      split at h
      · cases h
        simp
      · exact le_trans (ih (attempt + 1) _ _ _ _ out h) (by omega)

/-- C6: the repair phase runs only when the initial validation failed with a
truthy runtime error; it performs at most `maxFixAttempts = 2` fix+validate
attempts; it exits as soon as a re-validation passes (keeping that attempt's
code); and against an always-failing validator it terminates after exactly
the 2-attempt ceiling with the last attempt's code kept as the selected
code. -/
theorem C6_repair_loop (fixO : ℕ → CallOutcome String)
    (valO : ℕ → JsonOutcome RuntimeReply) (language task : String)
    (code : String) (v : ValidationResult) (stages : List StageRecord) (time : ℕ) :
    (¬(v.passed = false ∧ jsTruthyStrOpt v.runtimeError = true) →
        runFixPhase fixO valO language task ENGINE_CONFIG.maxFixAttempts
          code v stages time = .ok (code, v, stages, time, 0)) ∧
      (∀ out, runFixPhase fixO valO language task ENGINE_CONFIG.maxFixAttempts
          code v stages time = .ok out → out.2.2.2.2 ≤ ENGINE_CONFIG.maxFixAttempts) ∧
      (∀ raw, v.passed = false → jsTruthyStrOpt v.runtimeError = true →
        fixO 0 = .returned raw →
        (validateCode (stripCodeFences raw) language task (valO 1)).passed = true →
        runFixPhase fixO valO language task ENGINE_CONFIG.maxFixAttempts
            code v stages time =
          .ok (stripCodeFences raw,
            validateCode (stripCodeFences raw) language task (valO 1),
            stages ++ [mkStageRecord "runtime_fix_1" time (time + 1)], time + 2, 1)) ∧
      (∀ raw0 raw1, v.passed = false → jsTruthyStrOpt v.runtimeError = true →
        fixO 0 = .returned raw0 → fixO 1 = .returned raw1 →
        (∀ k c, (validateCode c language task (valO k)).passed = false) →
        runFixPhase fixO valO language task ENGINE_CONFIG.maxFixAttempts
            code v stages time =
          .ok (stripCodeFences raw1,
            validateCode (stripCodeFences raw1) language task (valO 2),
            stages ++ [mkStageRecord "runtime_fix_1" time (time + 1),
                       mkStageRecord "runtime_fix_2" (time + 2) (time + 3)],
            time + 4, 2)) := by
  refine ⟨?_, ?_, ?_, ?_⟩
  · intro hguard
    unfold runFixPhase
    rw [if_neg hguard]
  · intro out hout
    unfold runFixPhase at hout
    split at hout
    · exact repairLoop_attempts_le fixO valO language task
        ENGINE_CONFIG.maxFixAttempts 0 code v stages time out hout
    · cases hout
      simp
  · intro raw hpass herr hfix hval
    unfold runFixPhase
    rw [if_pos ⟨hpass, herr⟩]
    show repairLoop fixO valO language task 0 2 code v stages time = _
    rw [repairLoop, hfix]
    simp only [fixCode]
    rw [if_pos hval]
    rfl
  · intro raw0 raw1 hpass herr hfix0 hfix1 hvalfail
    unfold runFixPhase
    rw [if_pos ⟨hpass, herr⟩]
    show repairLoop fixO valO language task 0 2 code v stages time = _
    rw [repairLoop, hfix0]
    simp only [fixCode]
    rw [if_neg (by simp [hvalfail])]
    rw [repairLoop, hfix1]
    simp only [fixCode]
    rw [if_neg (by simp [hvalfail])]
    rw [repairLoop]
    rw [List.append_assoc]
    rfl

/-- C6 witness: a validator that always reports runtime score 40 (failing)
drives the loop through exactly the 2-attempt ceiling, keeping the second
attempt's code. -/
theorem C6_repair_loop_witness :
    runFixPhase (fun n => .returned (if n = 0 then "print(beta)" else "print(gamma)"))
        (fun _ => .parsed { score := some 40, wouldPass := false, error := some "boom" })
        "python" "t" ENGINE_CONFIG.maxFixAttempts "print(alpha)"
        { staticScore := 100, runtimeScore := 40, staticIssues := [],
          runtimeError := some "boom", passed := false } [] 10 =
      .ok (stripCodeFences "print(gamma)",
        validateCode (stripCodeFences "print(gamma)") "python" "t"
          ((fun _ => JsonOutcome.parsed
            { score := some 40, wouldPass := false, error := some "boom" }) 2),
        [] ++ [mkStageRecord "runtime_fix_1" 10 (10 + 1),
               mkStageRecord "runtime_fix_2" (10 + 2) (10 + 3)], 10 + 4, 2) := by
  refine (C6_repair_loop
      (fun n => .returned (if n = 0 then "print(beta)" else "print(gamma)"))
      (fun _ => .parsed { score := some 40, wouldPass := false, error := some "boom" })
      "python" "t" "print(alpha)"
      { staticScore := 100, runtimeScore := 40, staticIssues := [],
        runtimeError := some "boom", passed := false } [] 10).2.2.2
    "print(beta)" "print(gamma)" rfl rfl rfl rfl ?_
  intro k c
  simp [validateCode, runtimeValidation]
  norm_num

/-! ### Claim C10 -/

/-- A stage record as produced by `endStage`: completed, with both
timestamps and the duration. -/
def ShapedStage (s : StageRecord) : Prop :=
  s.status = "completed" ∧ ∃ t0 t1, s = mkStageRecord s.name t0 t1

theorem mkStage_shaped (name : String) (t0 t1 : ℕ) :
    ShapedStage (mkStageRecord name t0 t1) :=
  ⟨rfl, t0, t1, rfl⟩

/-- The stage list carried by either side of a repair-phase outcome. -/
def fixStagesOf
    (r : Except (String × List StageRecord)
      (String × ValidationResult × List StageRecord × ℕ × ℕ)) : List StageRecord :=
  match r with
  | .error (_, st) => st
  | .ok (_, _, st, _, _) => st

theorem repairLoop_stages_shaped (fixO : ℕ → CallOutcome String)
    (valO : ℕ → JsonOutcome RuntimeReply) (language task : String) :
    ∀ fuel attempt code v stages time,
      (∀ s ∈ stages, ShapedStage s) →
      ∀ s ∈ fixStagesOf (repairLoop fixO valO language task attempt fuel code v stages time),
        ShapedStage s := by
  intro fuel
  induction fuel with
  | zero =>
    intro attempt code v stages time hst s hs
    rw [repairLoop] at hs
    exact hst s hs
  | succ n ih =>
    intro attempt code v stages time hst s hs
    rw [repairLoop] at hs
    cases hfix : fixO attempt with
    | thrown m =>
      rw [hfix] at hs
      simp only [fixCode, fixStagesOf] at hs
      exact hst s hs
    | returned raw =>
      rw [hfix] at hs
      simp only [fixCode] at hs
      have hst2 : ∀ s ∈ stages ++
          [mkStageRecord ("runtime_fix_" ++ toString (attempt + 1)) time (time + 1)],
          ShapedStage s := by
        intro s2 hs2
        rcases List.mem_append.mp hs2 with h1 | h2
        · exact hst s2 h1
        · rcases List.mem_singleton.mp h2 with rfl
          exact mkStage_shaped _ _ _
      split at hs
      · simp only [fixStagesOf] at hs
        exact hst2 s hs
      · exact ih (attempt + 1) _ _ _ _ hst2 s hs

theorem runFixPhase_stages_shaped (fixO : ℕ → CallOutcome String)
    (valO : ℕ → JsonOutcome RuntimeReply) (language task : String)
    (maxFixAttempts : ℕ) (code : String) (v : ValidationResult)
    (stages : List StageRecord) (time : ℕ)
    (hst : ∀ s ∈ stages, ShapedStage s) :
    ∀ s ∈ fixStagesOf
        (runFixPhase fixO valO language task maxFixAttempts code v stages time),
      ShapedStage s := by
  intro s hs
  unfold runFixPhase at hs
  split at hs
  · exact repairLoop_stages_shaped fixO valO language task maxFixAttempts 0
      code v stages time hst s hs
  · simp only [fixStagesOf] at hs
    exact hst s hs

/-- The stage list carried by either side of a pipeline outcome. -/
def stagesOfOutcome
    (r : Except (String × List StageRecord) GenerateResponse) : List StageRecord :=
  match r with
  | .error (_, st) => st
  | .ok resp => resp.stages

theorem all_shaped_base (n : String) (t0 t1 : ℕ) :
    ∀ s ∈ [mkStageRecord n t0 t1], ShapedStage s := by
  intro s hs
  rcases List.mem_singleton.mp hs with rfl
  exact mkStage_shaped _ _ _

theorem all_shaped_push (l : List StageRecord) (h : ∀ s ∈ l, ShapedStage s)
    (n : String) (t0 t1 : ℕ) :
    ∀ s ∈ l ++ [mkStageRecord n t0 t1], ShapedStage s := by
  intro s hs
  rcases List.mem_append.mp hs with h1 | h2
  · exact h s h1
  · rcases List.mem_singleton.mp h2 with rfl
    exact mkStage_shaped _ _ _

/-- Every stage record in any pipeline outcome — success or failure — is a
completed `endStage` record with start/completion/duration. -/
theorem pipeline_stages_shaped (req : GenerateRequest) (env : PipelineEnv) :
    ∀ s ∈ stagesOfOutcome (runPipeline req env), ShapedStage s := by
  intro s hs
  unfold runPipeline at hs
  dsimp only at hs
  cases h1 : enhanceTask req.taskDescription req.language env.enhance with
  | error e =>
    rw [h1] at hs
    dsimp only [stagesOfOutcome] at hs
    exact absurd hs (List.not_mem_nil s)
  | ok enhancedTasks =>
    rw [h1] at hs
    dsimp only at hs
    cases h2 : (enhancedTasks.get? req.selectedTaskIndex).orElse
        (fun _ => enhancedTasks.get? 0) with
    | none =>
      rw [h2] at hs
      dsimp only [stagesOfOutcome] at hs
      exact absurd hs (List.not_mem_nil s)
    | some selectedTask =>
      rw [h2] at hs
      dsimp only at hs
      set rr := (if req.docContent ≠ "" ∧ 0 < (jsTrimS req.docContent).length then
          retrieveRelevantDocs selectedTask.description req.docContent none none [] env.rag
        else
          { context := "Documentation URL: " ++ req.docUrl ++
              "\nPlease implement based on the standard " ++ req.language ++
              " documentation and best practices."
            similarity := 1/2 }) with hrr
      cases h3 : generateCode selectedTask.description rr.context req.language
          env.primaryGen env.altGen 4 with
      | error e =>
        rw [h3] at hs
        dsimp only [stagesOfOutcome] at hs
        exact all_shaped_push _ (all_shaped_base _ _ _) _ _ _ s hs
      | ok genResult =>
        rw [h3] at hs
        dsimp only at hs
        cases h4 : judgeCode genResult.candidates selectedTask.description rr.context
            env.judge with
        | error e =>
          rw [h4] at hs
          dsimp only [stagesOfOutcome] at hs
          exact all_shaped_push _ (all_shaped_push _ (all_shaped_base _ _ _) _ _ _) _ _ _ s hs
        | ok judgeResult =>
          rw [h4] at hs
          dsimp only at hs
          cases h5 :
              (match Option.map (fun c : CodeCandidate => c.code)
                  (jsIndexGet genResult.candidates judgeResult.selectedIndex) with
               | some c =>
                  if c = "" then
                    Option.map (fun c0 : CodeCandidate => c0.code) (genResult.candidates.get? 0)
                  else some c
               | none =>
                  Option.map (fun c : CodeCandidate => c.code)
                    (genResult.candidates.get? 0) : Option String) with
          | none =>
            rw [h5] at hs
            dsimp only [stagesOfOutcome] at hs
            exact all_shaped_push _
              (all_shaped_push _ (all_shaped_push _ (all_shaped_base _ _ _) _ _ _) _ _ _)
              _ _ _ s hs
          | some selectedCode0 =>
            rw [h5] at hs
            dsimp only at hs
            have hst5 : ∀ x ∈ [mkStageRecord "enhancing_task" 0 1] ++
                [mkStageRecord "retrieving_docs" 2 3] ++
                [mkStageRecord "generating_code" 4 5] ++ [mkStageRecord "judging" 6 7] ++
                [mkStageRecord "validating" 8 9], ShapedStage x :=
              all_shaped_push _
                (all_shaped_push _
                  (all_shaped_push _ (all_shaped_push _ (all_shaped_base _ _ _) _ _ _) _ _ _)
                  _ _ _) _ _ _
            cases h6 : runFixPhase env.fix env.runtime req.language
                selectedTask.description ENGINE_CONFIG.maxFixAttempts selectedCode0
                (validateCode selectedCode0 req.language selectedTask.description
                  (env.runtime 0))
                ([mkStageRecord "enhancing_task" 0 1] ++
                  [mkStageRecord "retrieving_docs" 2 3] ++
                  [mkStageRecord "generating_code" 4 5] ++ [mkStageRecord "judging" 6 7] ++
                  [mkStageRecord "validating" 8 9]) 10 with
            | error pr =>
              obtain ⟨e, stagesE⟩ := pr
              rw [h6] at hs
              dsimp only [stagesOfOutcome] at hs
              have h7 := runFixPhase_stages_shaped env.fix env.runtime req.language
                selectedTask.description ENGINE_CONFIG.maxFixAttempts selectedCode0
                (validateCode selectedCode0 req.language selectedTask.description
                  (env.runtime 0)) _ 10 hst5
              rw [h6] at h7
              dsimp only [fixStagesOf] at h7
              exact h7 s hs
            | ok tup =>
              obtain ⟨selectedCode, validationResult, stages6, t6, k⟩ := tup
              rw [h6] at hs
              dsimp only [stagesOfOutcome] at hs
              have h7 := runFixPhase_stages_shaped env.fix env.runtime req.language
                selectedTask.description ENGINE_CONFIG.maxFixAttempts selectedCode0
                (validateCode selectedCode0 req.language selectedTask.description
                  (env.runtime 0)) _ 10 hst5
              rw [h6] at h7
              dsimp only [fixStagesOf] at h7
              exact all_shaped_push _
                (all_shaped_push _ (all_shaped_push _ h7 _ _ _) _ _ _) _ _ _ s hs

def c10Task : EnhancedTask :=
  { title := "t", description := "make a file lister", keyRequirements := [],
    suggestedApproach := "a" }

def c10Req : GenerateRequest :=
  { userId := "u1", taskDescription := "list files", docUrl := "http://docs",
    docContent := "", language := "python", selectedTaskIndex := 0 }

def c10RagEnv : RetrieveEnv :=
  { taskEmbedCached := .thrown "unused", taskEmbedMem := .thrown "unused",
    chunkEmbed := fun _ => .thrown "unused" }

/-- A fully successful run: one surviving candidate, passing validation. -/
def c10EnvS : PipelineEnv :=
  { enhance := .parsed (.arr [c10Task])
    rag := c10RagEnv
    primaryGen := .returned "print(alpha)"
    altGen := .thrown "alt down"
    judge := .thrown "unused"
    runtime := fun _ => .parsed { score := some 80, wouldPass := true, error := none }
    fix := fun _ => .returned "print(beta)"
    audit := .parsed { overallRisk := some "low", findings := some [],
                       performanceNotes := some [], score := some 90 }
    trace := .returned [] }

/-- Same run but validation always fails with a runtime error: both repair
attempts execute and complete. -/
def c10EnvR : PipelineEnv :=
  { c10EnvS with
    runtime := fun _ => .parsed { score := some 40, wouldPass := false, error := some "boom" } }

/-- Same failing validation, but the first fix call throws. -/
def c10EnvF : PipelineEnv :=
  { c10EnvR with fix := fun _ => .thrown "fix down" }

/-- Enhancement itself throws. -/
def c10EnvE : PipelineEnv :=
  { c10EnvS with enhance := .thrown "model down" }

/-- C10 (counterexample): the `enhancing_task` stage is started, the
enhancement call throws, and the failed run's stage list is empty —
`endStage` only runs after a stage's work succeeds, so a stage whose
execution throws leaves no Stage record, contradicting the claim that every
started stage leaves an entry. -/
theorem C10_stage_records_cex :
    runPipeline c10Req c10EnvE = .error ("model down", []) := by
  rfl

/-- C10 (amended): every stage that *runs to completion* leaves exactly one
completed Stage record carrying start/completion/duration (one record per
completed repair attempt); a stage whose execution throws leaves no record —
only the stages completed before the failure appear.  Shown in general for
record shape, and on concrete runs for the recorded sequences: a full
success records the eight pipeline stages; an always-failing validator adds
one record per completed repair attempt; a thrown fix call aborts the run
with only the five previously completed stages recorded. -/
theorem C10_stage_records_amended :
    (∀ (req : GenerateRequest) (env : PipelineEnv),
        ∀ s ∈ stagesOfOutcome (runPipeline req env),
          s.status = "completed" ∧ s.completedAt.isSome = true ∧
            s.durationMs.isSome = true) ∧
      (stagesOfOutcome (runPipeline c10Req c10EnvS)).map (fun s => s.name) =
        ["enhancing_task", "retrieving_docs", "generating_code", "judging",
         "validating", "security_audit", "trace_mapping", "scoring"] ∧
      (stagesOfOutcome (runPipeline c10Req c10EnvR)).map (fun s => s.name) =
        ["enhancing_task", "retrieving_docs", "generating_code", "judging",
         "validating", "runtime_fix_1", "runtime_fix_2", "security_audit",
         "trace_mapping", "scoring"] ∧
      runPipeline c10Req c10EnvF =
        .error ("fix down",
          [mkStageRecord "enhancing_task" 0 1, mkStageRecord "retrieving_docs" 2 3,
           mkStageRecord "generating_code" 4 5, mkStageRecord "judging" 6 7,
           mkStageRecord "validating" 8 9]) := by
  refine ⟨?_, ?_, ?_, ?_⟩
  · intro req env s hs
    obtain ⟨hst, t0, t1, heq⟩ := pipeline_stages_shaped req env s hs
    refine ⟨hst, ?_, ?_⟩
    · rw [heq]; rfl
    · rw [heq]; rfl
  · rfl
  · rfl
  · rfl

/-- C10 witness: the shape clause applied to the first recorded stage of
the concrete successful run. -/
theorem C10_stage_records_amended_witness :
    (mkStageRecord "enhancing_task" 0 1).status = "completed" ∧
      (mkStageRecord "enhancing_task" 0 1).completedAt.isSome = true ∧
      (mkStageRecord "enhancing_task" 0 1).durationMs.isSome = true :=
  C10_stage_records_amended.1 c10Req c10EnvS (mkStageRecord "enhancing_task" 0 1)
    (by decide)
